import Mathlib

/-!
Verification of the suggestion reconciliation engine of the spacecat audit
worker (source: `src/utils/data-access.js`).

The JavaScript module is shallowly embedded: JS objects become association
lists of `Val` (with JS truthiness), suggestion statuses become an inductive
type, and every exported function becomes a pure Lean function that also
returns a trace of the observable operations it performs (store writes,
injected-callback invocations, log calls), so that the claims about which
operations are or are not invoked can be stated directly.

Asynchronous store/HTTP operations are modelled by injected functions whose
results are `Except String` values: `Except.error` models a rejected promise.
The JS code mutates entities in place; the model returns the updated entity
lists instead (mutation order in the source keeps the relevant updates
disjoint, see the comments at each definition).
-/

namespace Spacecat

/-- A JavaScript value as far as the reconciliation engine inspects one:
strings, booleans and numbers, with JS truthiness. -/
inductive Val where
  | str : String → Val
  | bool : Bool → Val
  | num : Int → Val
  deriving DecidableEq, Repr

/-- JS truthiness for `Val` (empty string, `false`, `0` are falsy). -/
def Val.truthy : Val → Bool
  | .str s => s ≠ ""
  | .bool b => b
  | .num n => n ≠ 0

/-- A JS object, as a list of field name / value pairs. -/
abbrev Obj := List (String × Val)

/-- Field access `o.k` (first binding wins, absent field is `undefined`). -/
def objGet (o : Obj) (k : String) : Option Val :=
  (o.find? (fun p => p.1 = k)).map (fun p => p.2)

/-- Truthiness of `o.k`, where an absent field (`undefined`) is falsy. -/
def truthyField (o : Obj) (k : String) : Bool :=
  match objGet o k with
  | some v => v.truthy
  | none => false

/-- The JS object spread of `b` over `a` (fields of `b` win). -/
def spreadMerge (a b : Obj) : Obj :=
  a.filter (fun p => !(b.any (fun q => q.1 = p.1))) ++ b

/-- The suggestion statuses referenced by `data-access.js`
(`SuggestionDataAccess.STATUSES`). -/
inductive Status where
  | NEW
  | PENDING_VALIDATION
  | APPROVED
  | IN_PROGRESS
  | FIXED
  | REJECTED
  | SKIPPED
  | ERROR
  | OUTDATED
  deriving DecidableEq, Repr

/-- A persistent suggestion record: identifier, status, opaque data payload
and the actor tag written by `setUpdatedBy`. -/
structure Suggestion where
  id : Nat
  status : Status
  data : Obj
  updatedBy : String
  deriving DecidableEq, Repr

/-- Fix entity statuses referenced by the module
(`FixEntityDataAccess.STATUSES`). -/
inductive FixStatus where
  | DEPLOYED
  | PUBLISHED
  deriving DecidableEq, Repr

/-- A fix entity: identifier, linked suggestion identifiers
(`getSuggestionIds`), and status. -/
structure FixEntity where
  id : Nat
  suggestionIds : List String
  status : FixStatus
  deriving DecidableEq, Repr

/-- Observable operations performed by the engine: store writes, injected
callback invocations and the log calls the claims talk about. -/
inductive Event where
  | bulkUpdateStatus (ids : List Nat) (st : Status)
  | saveSuggestion (id : Nat)
  | addSuggestionsCall (count : Nat)
  | logWarn (msg : String)
  | fixedCheck (id : Nat)
  | saveFixAttempt (id : Nat)
  | addFixEntitiesCall (count : Nat)
  | fixEntityLookup (oppId : String)
  | fetchSuggestion (sid : String)
  | prodCheck (id : Nat)
  | saveFixEntity (id : Nat)
  | logSkipPublish
  deriving DecidableEq, Repr

/-! ## handleOutdatedSuggestions -/

/-- The statuses excluded from outdating (second `.filter` in
`handleOutdatedSuggestions`). -/
def outdatedExclusionStatuses : List Status :=
  [.OUTDATED, .FIXED, .ERROR, .SKIPPED, .REJECTED, .APPROVED, .IN_PROGRESS,
   .PENDING_VALIDATION]

/-- `data?.tokowakaDeployed || data?.edgeDeployed` (third `.filter`). -/
def isDeployedData (o : Obj) : Bool :=
  truthyField o "tokowakaDeployed" || truthyField o "edgeDeployed"

/-- The scraped-URL filter (fourth `.filter`): with a `scrapedUrlsSet`
present, the suggestion passes only when `data.url` is truthy and a member
of the set; without one every suggestion passes. -/
def passesScrapedFilter (scrapedUrlsSet : Option (List Val)) (o : Obj) : Bool :=
  match scrapedUrlsSet with
  | some set =>
      match objGet o "url" with
      | some u => u.truthy && set.contains u
      | none => false
  | none => true

/-- The conjunction of the four `.filter` stages of
`handleOutdatedSuggestions`, in source order. -/
def eligibleForOutdating (buildKey : Obj → String) (newDataKeys : List String)
    (scrapedUrlsSet : Option (List Val)) (s : Suggestion) : Bool :=
  !(newDataKeys.contains (buildKey s.data))
  && !(outdatedExclusionStatuses.contains s.status)
  && !(isDeployedData s.data)
  && passesScrapedFilter scrapedUrlsSet s.data

/-- The effect of `Suggestion.bulkUpdateStatus` on one in-memory record:
selected records get the outdated target status, others are untouched. -/
def outdateOne (buildKey : Obj → String) (newDataKeys : List String)
    (statusToSetForOutdated : Status) (scrapedUrlsSet : Option (List Val))
    (s : Suggestion) : Suggestion :=
  if eligibleForOutdating buildKey newDataKeys scrapedUrlsSet s then
    { s with status := statusToSetForOutdated }
  else s

structure OutdateResult where
  store : List Suggestion
  events : List Event
  deriving Repr

/-- `handleOutdatedSuggestions`: filters the existing suggestions down to
the ones eligible for outdating and bulk-transitions them to
`statusToSetForOutdated`; `bulkUpdateStatus` is only called when the
selection is non-empty. -/
def handleOutdatedSuggestions (buildKey : Obj → String)
    (newDataKeys : List String) (statusToSetForOutdated : Status)
    (scrapedUrlsSet : Option (List Val))
    (existingSuggestions : List Suggestion) : OutdateResult :=
  let selected := existingSuggestions.filter
    (eligibleForOutdating buildKey newDataKeys scrapedUrlsSet)
  let store := existingSuggestions.map
    (outdateOne buildKey newDataKeys statusToSetForOutdated scrapedUrlsSet)
  let events :=
    if selected.isEmpty then []
    else [Event.bulkUpdateStatus (selected.map (fun s => s.id)) statusToSetForOutdated]
  ⟨store, events⟩

/-! ## Key/merge policy functions -/

/-- `keepSameDataFunction`: ignores the new data. -/
def keepSameDataFunction (existingData _newData : Obj) : Obj :=
  existingData

/-- `keepLatestMergeDataFunction`: new data fully replaces existing. -/
def keepLatestMergeDataFunction (_existingData newData : Obj) : Obj :=
  newData

/-- `defaultMergeDataFunction`: shallow merge, new fields win. -/
def defaultMergeDataFunction (existingData newData : Obj) : Obj :=
  spreadMerge existingData newData

/-- The site policy the engine reads from the ambient context:
`Boolean(site?.requiresValidation)`. -/
structure Site where
  requiresValidation : Bool
  deriving Repr

/-- The context bag (`context.site`; data access and logger are modelled by
the injected operation parameters and the event trace). -/
structure Ctx where
  site : Option Site
  deriving Repr

/-- `Boolean(site?.requiresValidation)`. -/
def siteRequiresValidation (c : Ctx) : Bool :=
  match c.site with
  | some s => s.requiresValidation
  | none => false

/-- `defaultMergeStatusFunction`: REJECTED is kept, OUTDATED transitions to
PENDING_VALIDATION or NEW depending on site policy, anything else is kept
(`none` is the "keep existing status" sentinel). -/
def defaultMergeStatusFunction (existing : Suggestion) (_newDataItem : Obj)
    (c : Ctx) : Option Status :=
  if existing.status = Status.REJECTED then
    none
  else if existing.status = Status.OUTDATED then
    some (if siteRequiresValidation c then Status.PENDING_VALIDATION else Status.NEW)
  else
    none

/-! ## syncSuggestions -/

/-- One item of `errorItems` in the result of `opportunity.addSuggestions`. -/
structure ErrorItem where
  error : String
  deriving DecidableEq, Repr

/-- The result shape of the batch create `opportunity.addSuggestions`. -/
structure AddResult where
  createdItems : List Suggestion
  errorItems : List ErrorItem
  deriving DecidableEq, Repr

/-- The opportunity fields the module reads: `getId`, `getSiteId`,
`getType`. -/
structure Opportunity where
  id : String
  siteId : String
  oppType : String
  deriving DecidableEq, Repr

/-- The arguments of `syncSuggestions`.

`existingSuggestions` is the current suggestion record set (the source either
takes it pre-fetched or fetches it via `opportunity.getSuggestions()`; both
paths yield the same records). `addSuggestionsOracle` models the store's
behaviour on the batch create call `opportunity.addSuggestions`, returning
the created and errored items. `mapNewSuggestion` returns the new suggestion
record's data payload (the record's other audit-specific fields play no role
in the engine). The `if (!context) return` guard of the source is modelled
by the context always being present here. -/
structure SyncArgs where
  ctx : Ctx
  opportunity : Opportunity
  newData : List Obj
  buildKey : Obj → String
  mapNewSuggestion : Obj → Obj
  mergeDataFunction : Obj → Obj → Obj
  mergeStatusFunction : Suggestion → Obj → Ctx → Option Status
  statusToSetForOutdated : Status
  scrapedUrlsSet : Option (List Val)
  addSuggestionsOracle : List (Obj × Status) → AddResult
  existingSuggestions : List Suggestion

/-- `new Map(newData.map((data) => [buildKey(data), data]))` followed by
`.get k`: last entry with the key wins. -/
def mapGetLast (entries : List (String × Obj)) (k : String) : Option Obj :=
  (entries.reverse.find? (fun p => p.1 = k)).map (fun p => p.2)

/-- `newDataByKey.get key` for the given sync call. -/
def newDataByKeyGet (a : SyncArgs) (k : String) : Option Obj :=
  mapGetLast (a.newData.map (fun d => (a.buildKey d, d))) k

/-- One matched-suggestion update (the `.filter(...).map(...)` stage of
`syncSuggestions`): if the suggestion's key is present among the new data
keys, its data is merged, the merge status function (applied after
`setData`, as in the source) possibly changes the status, and the actor is
stamped; otherwise the record is untouched. -/
def matchedUpdate (a : SyncArgs) (s : Suggestion) : Suggestion :=
  let key := a.buildKey s.data
  if (a.newData.map a.buildKey).contains key then
    match newDataByKeyGet a key with
    | some newDataItem =>
        let s1 := { s with data := a.mergeDataFunction s.data newDataItem }
        let s2 :=
          match a.mergeStatusFunction s1 newDataItem a.ctx with
          | some st => { s1 with status := st }
          | none => s1
        { s2 with updatedBy := "system" }
    | none => s
  else s

/-- The records submitted to the batch create: new data items whose key has
no existing suggestion, mapped through `mapNewSuggestion` and given initial
status `PENDING_VALIDATION` or `NEW` by site policy. -/
def syncNewSubmissions (a : SyncArgs) : List (Obj × Status) :=
  let existingSuggestionKeys :=
    a.existingSuggestions.map (fun s => a.buildKey s.data)
  (a.newData.filter (fun d => !(existingSuggestionKeys.contains (a.buildKey d)))).map
    (fun d => (a.mapNewSuggestion d,
      if siteRequiresValidation a.ctx then Status.PENDING_VALIDATION
      else Status.NEW))

/-- The existing record set after the outdating step and the matched
updates of one `syncSuggestions` call. -/
def syncUpdatedExisting (a : SyncArgs) : List Suggestion :=
  ((handleOutdatedSuggestions a.buildKey (a.newData.map a.buildKey)
      a.statusToSetForOutdated a.scrapedUrlsSet a.existingSuggestions).store).map
    (matchedUpdate a)

structure SyncOutcome where
  store : List Suggestion
  thrown : Option String
  events : List Event
  deriving Repr

/-- The error thrown when the whole batch create failed. -/
def mkFailMessage (siteId sampleError : String) : String :=
  "Failed to create suggestions for siteId " ++ siteId ++ ". Sample error: "
    ++ sampleError

/-- The warning logged when some created items and some errors coexist. -/
def mkSomeFailedWarn (created errored : Nat) : String :=
  "Partial success: Created " ++ toString created ++ " suggestions, "
    ++ toString errored ++ " failed"

/-- `syncSuggestions`: outdate the disappeared, update the matched, create
the unmatched, and apply the batch-create failure policy (throw only when
zero items were created and at least one error occurred). -/
def syncSuggestions (a : SyncArgs) : SyncOutcome :=
  let newDataKeys := a.newData.map a.buildKey
  let outdated := handleOutdatedSuggestions a.buildKey newDataKeys
    a.statusToSetForOutdated a.scrapedUrlsSet a.existingSuggestions
  let afterUpdate := syncUpdatedExisting a
  let updateEvents :=
    (outdated.store.filter
      (fun s => newDataKeys.contains (a.buildKey s.data))).map
      (fun s => Event.saveSuggestion s.id)
  let newSuggestions := syncNewSubmissions a
  if newSuggestions.length > 0 then
    let siteId := if a.opportunity.siteId = "" then "unknown" else a.opportunity.siteId
    let res := a.addSuggestionsOracle newSuggestions
    let baseEvents := outdated.events ++ updateEvents
      ++ [Event.addSuggestionsCall newSuggestions.length]
    if res.errorItems.length > 0 then
      if res.createdItems.length ≤ 0 then
        let sampleError :=
          match res.errorItems.head? with
          | some e => if e.error = "" then "Unknown error" else e.error
          | none => "Unknown error"
        { store := afterUpdate ++ res.createdItems,
          thrown := some (mkFailMessage siteId sampleError),
          events := baseEvents }
      else
        { store := afterUpdate ++ res.createdItems,
          thrown := none,
          events := baseEvents
            ++ [Event.logWarn (mkSomeFailedWarn res.createdItems.length res.errorItems.length)] }
    else
      { store := afterUpdate ++ res.createdItems,
        thrown := none,
        events := baseEvents }
  else
    { store := afterUpdate, thrown := none, events := outdated.events ++ updateEvents }

/-! ## getDisappearedSuggestions and reconcileDisappearedSuggestions -/

/-- `getDisappearedSuggestions`: existing suggestions whose key is no longer
among the new data keys. -/
def getDisappearedSuggestions (existingSuggestions : List Suggestion)
    (newDataKeys : List String) (buildKey : Obj → String) : List Suggestion :=
  existingSuggestions.filter
    (fun s => !(newDataKeys.contains (buildKey s.data)))

/-- The payload produced by the injected `buildFixEntityPayload` builder
(opaque to the engine; only collected and batch-added). -/
structure FixPayload where
  suggestionId : Nat
  deriving DecidableEq, Repr

/-- Arguments of `reconcileDisappearedSuggestions`. Injected callbacks and
store operations return `Except String` values: `Except.error` models a
rejected promise / thrown exception. `isIssueFixedWithAISuggestion` and
`buildFixEntityPayload` are optional, as the source invokes them through
optional chaining / a typeof check; `hasAddFixEntities` models the
`typeof opportunity.addFixEntities === 'function'` check. -/
structure ReconcileArgs where
  disappearedSuggestions : List Suggestion
  isIssueFixedWithAISuggestion : Option (Suggestion → Except String Bool)
  buildFixEntityPayload : Option (Suggestion → Except String (Option FixPayload))
  saveSuggestionResult : Suggestion → Except String Unit
  addFixEntitiesResult : List FixPayload → Except String Unit
  hasAddFixEntities : Bool
  isAuthorOnly : Bool

/-- One task of `limitConcurrencyAllSettled` over the fixed-checks.

Modelled from the spec: the bounded-concurrency executor
(`limitConcurrencyAllSettled`, `src/support/utils.js`, not part of the
sources at hand) runs every task and returns, in input order, either the
task's resolved value or a failure marker, never propagating a rejection.
A missing callback (`isIssueFixedWithAISuggestion?.()`) resolves to an
undefined — hence falsy — `isFixed`. -/
def runFixedCheck (cb : Option (Suggestion → Except String Bool))
    (s : Suggestion) : Option (Suggestion × Bool) × List Event :=
  match cb with
  | none => (some (s, false), [])
  | some f =>
      match f s with
      | .ok b => (some (s, b), [Event.fixedCheck s.id])
      | .error _ => (none, [Event.fixedCheck s.id])

/-- Whether the reconciler marks this disappeared suggestion FIXED: it is a
candidate (status NEW) and its fixed-check settled to true. -/
def reconcileMarksFixed (a : ReconcileArgs) (s : Suggestion) : Bool :=
  decide (s.status = Status.NEW)
    && ((runFixedCheck a.isIssueFixedWithAISuggestion s).1 == some (s, true))

/-- The in-memory mutation applied to a suggestion the reconciler marks
FIXED (`setStatus`, `setUpdatedBy`); applied before `save`, hence visible
even when `save` rejects. -/
def markFixed (s : Suggestion) : Suggestion :=
  { s with status := Status.FIXED, updatedBy := "system" }

/-- Per-fixed-suggestion processing: save attempt (its failure is caught and
logged), then the fix-entity payload builder (its failure is caught and
logged; a falsy payload is dropped). Returns the mutated record, the
collected payload if any, and the events. -/
def processFixed (a : ReconcileArgs) (s : Suggestion) :
    Suggestion × Option FixPayload × List Event :=
  let s' := markFixed s
  match a.saveSuggestionResult s' with
  | .error msg =>
      (s', none,
        [Event.saveFixAttempt s.id,
         Event.logWarn ("Failed to mark suggestion " ++ toString s.id
           ++ " as FIXED: " ++ msg)])
  | .ok _ =>
      match a.buildFixEntityPayload with
      | none => (s', none, [Event.saveFixAttempt s.id])
      | some builder =>
          match builder s' with
          | .ok (some p) => (s', some p, [Event.saveFixAttempt s.id])
          | .ok none => (s', none, [Event.saveFixAttempt s.id])
          | .error msg =>
              (s', none,
                [Event.saveFixAttempt s.id,
                 Event.logWarn ("Failed building fix entity for suggestion "
                   ++ toString s.id ++ ": " ++ msg)])

structure ReconcileOutcome where
  patched : List Suggestion
  thrown : Option String
  events : List Event
  deriving Repr

/-- `reconcileDisappearedSuggestions`: among the disappeared suggestions
only those in NEW status are candidates; their fixed-checks run under the
settle-all executor; suggestions that settle as fixed are marked FIXED and
saved, payloads are collected and batch-added. Every per-item and stage
failure is caught and logged; the whole body sits in a try/catch, so the
call never propagates an exception (`thrown` is always `none`). `patched`
is the disappeared record set with the in-memory mutations applied. -/
def reconcileDisappearedSuggestions (a : ReconcileArgs) : ReconcileOutcome :=
  let candidates := a.disappearedSuggestions.filter
    (fun s => decide (s.status = Status.NEW))
  if candidates.isEmpty then
    ⟨a.disappearedSuggestions, none, []⟩
  else
    let checkEvents := candidates.flatMap
      (fun s => (runFixedCheck a.isIssueFixedWithAISuggestion s).2)
    let fixedSuggestions := candidates.filter (reconcileMarksFixed a)
    let processed := fixedSuggestions.map (processFixed a)
    let fixEntityObjects := processed.filterMap (fun t => t.2.1)
    let processEvents := processed.flatMap (fun t => t.2.2)
    let addEvents :=
      if fixEntityObjects.length > 0 && a.hasAddFixEntities then
        match a.addFixEntitiesResult fixEntityObjects with
        | .ok _ => [Event.addFixEntitiesCall fixEntityObjects.length]
        | .error msg =>
            [Event.addFixEntitiesCall fixEntityObjects.length,
             Event.logWarn ("Failed to add fix entities on opportunity: " ++ msg)]
      else []
    let patched := a.disappearedSuggestions.map
      (fun s => if reconcileMarksFixed a s then markFixed s else s)
    ⟨patched, none, checkEvents ++ processEvents ++ addEvents⟩

/-! ## publishDeployedFixEntities -/

/-- Arguments of `publishDeployedFixEntities`. `apisAvailable` models the
`FixEntity?.allByOpportunityIdAndStatus && Suggestion?.getFixEntitiesBySuggestionId`
availability guard; `fixEntityLookup` is the result of
`FixEntity.allByOpportunityIdAndStatus(opportunityId, DEPLOYED)`;
`fetchSuggestionList sid` is the `data` list destructured from
`Suggestion.getFixEntitiesBySuggestionId(sid)` (the source takes its first
element). -/
structure PublishArgs where
  opportunityId : String
  apisAvailable : Bool
  fixEntityLookup : Except String (List FixEntity)
  fetchSuggestionList : String → Except String (List Suggestion)
  currentAuditData : Option (List Obj)
  buildKey : Option (Obj → String)
  isIssueResolvedOnProduction : Option (Suggestion → Except String Bool)
  saveFixEntityResult : FixEntity → Except String Unit

/-- Fetch of one linked suggestion: the head of the returned `data` list
(`suggestions[0]`), `none` when the list is empty. -/
def fetchFirst (a : PublishArgs) (sid : String) : Except String (Option Suggestion) :=
  match a.fetchSuggestionList sid with
  | .ok l => .ok l.head?
  | .error e => .error e

structure CheckResult where
  fixEntity : FixEntity
  allResolved : Bool
  deriving Repr

/-- The single production-resolution check of one fetched suggestion, as run
under the settle-all executor.

Modelled from the spec for the executor part (see `runFixedCheck`): a task
rejection becomes a failure marker (`none`), which is not the value `true`
and therefore counts against `allResolved`; a missing predicate
(`isIssueResolvedOnProduction?.()`) resolves to an undefined value,
likewise not `true`. -/
def runProdCheck (cb : Option (Suggestion → Except String Bool))
    (s : Suggestion) : Option Bool × List Event :=
  match cb with
  | none => (some false, [])
  | some p =>
      match p s with
      | .ok b => (some b, [Event.prodCheck s.id])
      | .error _ => (none, [Event.prodCheck s.id])

/-- `checkFixEntity`: no linked suggestion identifiers means not resolved;
all linked suggestions are fetched (a rejected fetch rejects the whole
check, `Promise.all` semantics); the fast-path loop short-circuits to not
resolved when a fetched suggestion is missing or, with current audit data
and key function supplied, when a linked suggestion's key is still present
this run; otherwise every suggestion is verified on production and the
entity is resolved only when every check settled to `true`. -/
def checkFixEntity (a : PublishArgs) (fe : FixEntity) :
    Except String CheckResult × List Event :=
  if fe.suggestionIds.isEmpty then
    (.ok ⟨fe, false⟩, [])
  else
    let fetchEvents := fe.suggestionIds.map Event.fetchSuggestion
    let fetched := fe.suggestionIds.map (fetchFirst a)
    if fetched.any (fun r => !r.toBool) then
      (.error "fetch failed", fetchEvents)
    else
      let suggestionResults := fetched.filterMap
        (fun r => match r with | .ok o => some o | .error _ => none)
      let currentDataKeys :=
        match a.currentAuditData, a.buildKey with
        | some dataList, some bk => some (dataList.map bk)
        | _, _ => none
      let fastHit := suggestionResults.any
        (fun o =>
          match o with
          | none => true
          | some s =>
              match currentDataKeys, a.buildKey with
              | some keys, some bk => keys.contains (bk s.data)
              | _, _ => false)
      if fastHit then
        (.ok ⟨fe, false⟩, fetchEvents)
      else
        let httpOut := suggestionResults.map
          (fun o =>
            match o with
            | some s => runProdCheck a.isIssueResolvedOnProduction s
            | none => (some false, []))
        let httpEvents := httpOut.flatMap (fun t => t.2)
        let allResolved := httpOut.all (fun t => t.1 == some true)
        (.ok ⟨fe, allResolved⟩, fetchEvents ++ httpEvents)

structure PublishOutcome where
  published : List FixEntity
  thrown : Option String
  events : List Event
  deriving Repr

/-- `publishDeployedFixEntities`: fetch all DEPLOYED fix entities of the
opportunity, check each one under the settle-all executor (a rejected check
is a failure marker, hence not resolved), and transition the resolved ones
in memory to PUBLISHED with a save whose failure is logged per entity. The
whole body sits in a try/catch, so the call never propagates an exception
(`thrown` is always `none`). `published` lists the entities transitioned in
memory (also when their save rejected, as `setStatus` precedes `save`). -/
def publishDeployedFixEntities (a : PublishArgs) : PublishOutcome :=
  if !a.apisAvailable then
    ⟨[], none, []⟩
  else
    match a.fixEntityLookup with
    | .error msg =>
        ⟨[], none,
         [Event.fixEntityLookup a.opportunityId,
          Event.logWarn ("Failed to publish deployed fix entities: " ++ msg)]⟩
    | .ok deployedFixEntities =>
        if deployedFixEntities.isEmpty then
          ⟨[], none, [Event.fixEntityLookup a.opportunityId]⟩
        else
          let checks := deployedFixEntities.map (checkFixEntity a)
          let checkEvents := checks.flatMap (fun c => c.2)
          let resolvedEntities := checks.filterMap
            (fun c =>
              match c.1 with
              | .ok r => if r.allResolved then some r.fixEntity else none
              | .error _ => none)
          let pubOut := resolvedEntities.map
            (fun fe =>
              let fe' := { fe with status := FixStatus.PUBLISHED }
              match a.saveFixEntityResult fe' with
              | .ok _ => (fe', [Event.saveFixEntity fe.id])
              | .error msg =>
                  (fe', [Event.saveFixEntity fe.id,
                         Event.logWarn ("Failed to save fix entity: " ++ msg)]))
          ⟨pubOut.map (fun t => t.1), none,
           [Event.fixEntityLookup a.opportunityId] ++ checkEvents
             ++ pubOut.flatMap (fun t => t.2)⟩

/-! ## syncSuggestionsWithPublishDetection -/

/-- `AUTHOR_ONLY_OPPORTUNITY_TYPES`. -/
def AUTHOR_ONLY_OPPORTUNITY_TYPES : List String :=
  ["security-permissions-redundant", "security-permissions"]

/-- Arguments of the orchestrator: the sync arguments (whose
`existingSuggestions` is the single `opportunity.getSuggestions()` fetch)
plus the publish-detection callbacks and the store behaviours consumed by
the two best-effort stages. -/
structure OrchestratorArgs where
  sync : SyncArgs
  isIssueFixedWithAISuggestion : Option (Suggestion → Except String Bool)
  buildFixEntityPayload : Option (Suggestion → Except String (Option FixPayload))
  isIssueResolvedOnProduction : Option (Suggestion → Except String Bool)
  saveSuggestionResult : Suggestion → Except String Unit
  addFixEntitiesResult : List FixPayload → Except String Unit
  hasAddFixEntities : Bool
  apisAvailable : Bool
  fixEntityLookup : Except String (List FixEntity)
  fetchSuggestionList : String → Except String (List Suggestion)
  saveFixEntityResult : FixEntity → Except String Unit

/-- In-place mutation performed by the reconciler on the shared suggestion
objects, reflected into the single fetched record set: a record is replaced
by its patched version, records being identified by their id. -/
def applyPatches (store patched : List Suggestion) : List Suggestion :=
  store.map (fun s => ((patched.find? (fun p => p.id == s.id)).getD s))

/-- `syncSuggestionsWithPublishDetection`: determine the author-only flag
from the opportunity type, compute the disappeared set from one fetch, run
the reconciler when both its callbacks are supplied, run the publish
pipeline when its callback is supplied and the type is not author-only
(else log a skip), then delegate to `syncSuggestions` with the already
fetched (and in-place mutated) record set. -/
def syncSuggestionsWithPublishDetection (a : OrchestratorArgs) : SyncOutcome :=
  let opportunityType := a.sync.opportunity.oppType
  let isAuthorOnly := AUTHOR_ONLY_OPPORTUNITY_TYPES.contains opportunityType
  let newDataKeys := a.sync.newData.map a.sync.buildKey
  let existingSuggestions := a.sync.existingSuggestions
  let disappeared := getDisappearedSuggestions existingSuggestions newDataKeys
    a.sync.buildKey
  let step1 :=
    if a.isIssueFixedWithAISuggestion.isSome && a.buildFixEntityPayload.isSome then
      let r := reconcileDisappearedSuggestions
        ⟨disappeared, a.isIssueFixedWithAISuggestion, a.buildFixEntityPayload,
         a.saveSuggestionResult, a.addFixEntitiesResult, a.hasAddFixEntities,
         isAuthorOnly⟩
      (applyPatches existingSuggestions r.patched, r.events)
    else (existingSuggestions, [])
  let publishEvents :=
    if isAuthorOnly then [Event.logSkipPublish]
    else if a.isIssueResolvedOnProduction.isSome then
      (publishDeployedFixEntities
        ⟨a.sync.opportunity.id, a.apisAvailable, a.fixEntityLookup,
         a.fetchSuggestionList, some a.sync.newData, some a.sync.buildKey,
         a.isIssueResolvedOnProduction, a.saveFixEntityResult⟩).events
    else []
  let out := syncSuggestions { a.sync with existingSuggestions := step1.1 }
  { out with events := step1.2 ++ publishEvents ++ out.events }

/-! ## Structural lemmas -/

/-- Every branch of `syncSuggestions` stores the updated existing records
first, followed by whatever the batch create returned. -/
theorem sync_store_decomp (a : SyncArgs) :
    ∃ rest, (syncSuggestions a).store = syncUpdatedExisting a ++ rest := by
  unfold syncSuggestions
  dsimp only
  split
  · split
    · split
      · exact ⟨_, rfl⟩
      · exact ⟨_, rfl⟩
    · exact ⟨_, rfl⟩
  · exact ⟨[], (List.append_nil _).symm⟩

theorem syncUpdatedExisting_length (a : SyncArgs) :
    (syncUpdatedExisting a).length = a.existingSuggestions.length := by
  unfold syncUpdatedExisting handleOutdatedSuggestions
  simp

theorem syncUpdatedExisting_getElem? (a : SyncArgs) (i : Nat) :
    (syncUpdatedExisting a)[i]? =
      (a.existingSuggestions[i]?).map
        (fun s => matchedUpdate a
          (outdateOne a.buildKey (a.newData.map a.buildKey)
            a.statusToSetForOutdated a.scrapedUrlsSet s)) := by
  unfold syncUpdatedExisting handleOutdatedSuggestions
  simp only [List.getElem?_map]
  cases a.existingSuggestions[i]? <;> rfl

/-- The updated record at a position below the existing count. -/
theorem sync_store_getElem? (a : SyncArgs) (i : Nat)
    (hi : i < a.existingSuggestions.length) :
    (syncSuggestions a).store[i]? =
      some (matchedUpdate a
        (outdateOne a.buildKey (a.newData.map a.buildKey)
          a.statusToSetForOutdated a.scrapedUrlsSet (a.existingSuggestions[i]))) := by
  obtain ⟨rest, hstore⟩ := sync_store_decomp a
  have hlen : i < (syncUpdatedExisting a).length := by
    rw [syncUpdatedExisting_length]; exact hi
  rw [hstore, List.getElem?_append, if_pos hlen, syncUpdatedExisting_getElem?,
    List.getElem?_eq_getElem hi]
  rfl

/-- A suggestion whose key is still present is not eligible for outdating. -/
theorem eligible_false_of_key_mem (buildKey : Obj → String)
    (newDataKeys : List String) (scraped : Option (List Val))
    (s : Suggestion) (h : newDataKeys.contains (buildKey s.data) = true) :
    eligibleForOutdating buildKey newDataKeys scraped s = false := by
  unfold eligibleForOutdating
  rw [h]
  rfl

theorem outdateOne_of_key_mem (buildKey : Obj → String)
    (newDataKeys : List String) (st : Status) (scraped : Option (List Val))
    (s : Suggestion) (h : newDataKeys.contains (buildKey s.data) = true) :
    outdateOne buildKey newDataKeys st scraped s = s := by
  unfold outdateOne
  rw [eligible_false_of_key_mem buildKey newDataKeys scraped s h]
  rfl

/-- A suggestion whose data is marked deployed is not eligible for
outdating. -/
theorem eligible_false_of_deployed (buildKey : Obj → String)
    (newDataKeys : List String) (scraped : Option (List Val))
    (s : Suggestion) (h : isDeployedData s.data = true) :
    eligibleForOutdating buildKey newDataKeys scraped s = false := by
  unfold eligibleForOutdating
  rw [h]
  simp

theorem outdateOne_of_deployed (buildKey : Obj → String)
    (newDataKeys : List String) (st : Status) (scraped : Option (List Val))
    (s : Suggestion) (h : isDeployedData s.data = true) :
    outdateOne buildKey newDataKeys st scraped s = s := by
  unfold outdateOne
  rw [eligible_false_of_deployed buildKey newDataKeys scraped s h]
  rfl

/-- Without a truthy `url` data field, the scraped filter rejects. -/
theorem passesScrapedFilter_false_of_no_truthy_url (F : List Val) (o : Obj)
    (h : truthyField o "url" = false) :
    passesScrapedFilter (some F) o = false := by
  unfold passesScrapedFilter
  unfold truthyField at h
  cases hu : objGet o "url" with
  | none => rfl
  | some u =>
      rw [hu] at h
      have h' : u.truthy = false := h
      simp only
      rw [h']
      rfl

theorem outdateOne_of_no_truthy_url (buildKey : Obj → String)
    (newDataKeys : List String) (st : Status) (F : List Val)
    (s : Suggestion) (h : truthyField s.data "url" = false) :
    outdateOne buildKey newDataKeys st (some F) s = s := by
  unfold outdateOne eligibleForOutdating
  rw [passesScrapedFilter_false_of_no_truthy_url F s.data h]
  simp

/-- A suggestion whose key is absent from the new data keys is not touched
by the matched-update stage. -/
theorem matchedUpdate_of_key_not_mem (a : SyncArgs) (s : Suggestion)
    (h : (a.newData.map a.buildKey).contains (a.buildKey s.data) = false) :
    matchedUpdate a s = s := by
  unfold matchedUpdate
  simp only [h]
  rfl

/-- The `newDataByKey` lookup succeeds for a key present among the new data
keys, and returns a new data item carrying that key. -/
theorem newDataByKeyGet_isSome (a : SyncArgs) (k : String)
    (h : (a.newData.map a.buildKey).contains k = true) :
    ∃ n, newDataByKeyGet a k = some n ∧ n ∈ a.newData ∧ a.buildKey n = k := by
  unfold newDataByKeyGet mapGetLast
  have h' : k ∈ a.newData.map a.buildKey := by simpa using h
  rcases List.mem_map.mp h' with ⟨d, hd, hk⟩
  cases hfind : (a.newData.map (fun d => (a.buildKey d, d))).reverse.find?
      (fun p => p.1 = k) with
  | none =>
      exfalso
      have hmem : (k, d) ∈ (a.newData.map (fun d => (a.buildKey d, d))).reverse := by
        rw [List.mem_reverse]
        refine List.mem_map.mpr ⟨d, hd, ?_⟩
        rw [hk]
      have := List.find?_eq_none.mp hfind _ hmem
      simp at this
  | some p =>
      have hpk : p.1 = k := by
        have := List.find?_some hfind
        simpa using this
      have hpmem : p ∈ a.newData.map (fun d => (a.buildKey d, d)) :=
        List.mem_reverse.mp (List.mem_of_find?_eq_some hfind)
      rcases List.mem_map.mp hpmem with ⟨d', hd', hp⟩
      refine ⟨p.2, rfl, ?_, ?_⟩
      · rw [← hp]; exact hd'
      · rw [← hp] at hpk ⊢; exact hpk

/-- The status transition table implemented by
`defaultMergeStatusFunction` for a matched suggestion: REJECTED stays,
OUTDATED goes to PENDING_VALIDATION or NEW by site policy, every other
status stays. -/
def defaultStatusTransition (st : Status) (requiresValidation : Bool) : Status :=
  match st with
  | Status.REJECTED => Status.REJECTED
  | Status.OUTDATED =>
      if requiresValidation then Status.PENDING_VALIDATION else Status.NEW
  | s => s

/-- Status of a matched suggestion after the update stage, under the
default status-merge policy. -/
theorem matchedUpdate_status_default (a : SyncArgs) (s : Suggestion)
    (hms : a.mergeStatusFunction = defaultMergeStatusFunction)
    (hkey : (a.newData.map a.buildKey).contains (a.buildKey s.data) = true) :
    (matchedUpdate a s).status =
      defaultStatusTransition s.status (siteRequiresValidation a.ctx) := by
  unfold defaultStatusTransition
  obtain ⟨n, hn, -, -⟩ := newDataByKeyGet_isSome a (a.buildKey s.data) hkey
  unfold matchedUpdate
  simp only [hkey, if_true, hn, hms]
  unfold defaultMergeStatusFunction
  cases s.status <;> simp

/-- C2: a suggestion whose data has a truthy `tokowakaDeployed` or
`edgeDeployed` field and whose key is absent from the new findings is left
completely untouched by `syncSuggestions` — in particular it is never
transitioned to OUTDATED (or to any substituted outdated-target status),
for any scraped-keys filter. -/
theorem deployed_suggestion_never_outdated (a : SyncArgs) (i : Nat)
    (hi : i < a.existingSuggestions.length)
    (hdep : isDeployedData (a.existingSuggestions[i]).data = true)
    (hkey : (a.newData.map a.buildKey).contains
      (a.buildKey (a.existingSuggestions[i]).data) = false) :
    (syncSuggestions a).store[i]? = some (a.existingSuggestions[i]) := by
  rw [sync_store_getElem? a i hi,
    outdateOne_of_deployed _ _ _ _ _ hdep,
    matchedUpdate_of_key_not_mem a _ hkey]

def wSuggC2 : Suggestion :=
  ⟨1, Status.NEW, [("tokowakaDeployed", Val.bool true), ("url", Val.str "https://a.example/p")], "u"⟩

def wBuildKey : Obj → String := fun o =>
  match objGet o "url" with
  | some (Val.str s) => s
  | _ => ""

def wArgsC2 : SyncArgs :=
  { ctx := ⟨none⟩
    opportunity := ⟨"opp1", "site1", "broken-links"⟩
    newData := []
    buildKey := wBuildKey
    mapNewSuggestion := fun d => d
    mergeDataFunction := defaultMergeDataFunction
    mergeStatusFunction := defaultMergeStatusFunction
    statusToSetForOutdated := Status.OUTDATED
    scrapedUrlsSet := some [Val.str "https://a.example/p"]
    addSuggestionsOracle := fun _ => ⟨[], []⟩
    existingSuggestions := [wSuggC2] }

/-- Witness for C2 at a concrete input: a deployed suggestion whose key
disappeared and whose url is in the scraped set is untouched. -/
theorem deployed_suggestion_never_outdated_witness :
    0 < wArgsC2.existingSuggestions.length
    ∧ isDeployedData wSuggC2.data = true
    ∧ (syncSuggestions wArgsC2).store[0]? = some wSuggC2 :=
  ⟨by decide, by decide,
    deployed_suggestion_never_outdated wArgsC2 0 (by decide) (by decide) (by decide)⟩

/-- C10: with a scraped-keys filter supplied, a disappeared suggestion
whose data lacks a truthy `url` field is left untouched by
`syncSuggestions`, whatever its key or status: the filter membership test
runs on the `url` data field. -/
theorem no_truthy_url_never_outdated (a : SyncArgs) (F : List Val) (i : Nat)
    (hi : i < a.existingSuggestions.length)
    (hscr : a.scrapedUrlsSet = some F)
    (hurl : truthyField (a.existingSuggestions[i]).data "url" = false)
    (hkey : (a.newData.map a.buildKey).contains
      (a.buildKey (a.existingSuggestions[i]).data) = false) :
    (syncSuggestions a).store[i]? = some (a.existingSuggestions[i]) := by
  rw [sync_store_getElem? a i hi, hscr,
    outdateOne_of_no_truthy_url _ _ _ _ _ hurl,
    matchedUpdate_of_key_not_mem a _ hkey]

def wSuggC10 : Suggestion :=
  ⟨2, Status.NEW, [("pageUrl", Val.str "https://b.example/q")], "u"⟩

def wArgsC10 : SyncArgs :=
  { ctx := ⟨none⟩
    opportunity := ⟨"opp1", "site1", "broken-links"⟩
    newData := []
    buildKey := fun o =>
      match objGet o "pageUrl" with
      | some (Val.str s) => s
      | _ => ""
    mapNewSuggestion := fun d => d
    mergeDataFunction := defaultMergeDataFunction
    mergeStatusFunction := defaultMergeStatusFunction
    statusToSetForOutdated := Status.OUTDATED
    scrapedUrlsSet := some [Val.str "https://b.example/q"]
    addSuggestionsOracle := fun _ => ⟨[], []⟩
    existingSuggestions := [wSuggC10] }

/-- Witness for C10 at a concrete input: a NEW suggestion whose key
disappeared, whose key value is even in the filter, but whose data has no
`url` field, stays NEW. -/
theorem no_truthy_url_never_outdated_witness :
    0 < wArgsC10.existingSuggestions.length
    ∧ truthyField wSuggC10.data "url" = false
    ∧ (syncSuggestions wArgsC10).store[0]? = some wSuggC10 :=
  ⟨by decide, by decide,
    no_truthy_url_never_outdated wArgsC10 [Val.str "https://b.example/q"] 0
      (by decide) rfl (by decide) (by decide)⟩

/-- `syncSuggestions` with no submissions to create keeps exactly the
updated existing records. -/
theorem sync_store_of_no_new (a : SyncArgs) (h : syncNewSubmissions a = []) :
    (syncSuggestions a).store = syncUpdatedExisting a := by
  unfold syncSuggestions
  rw [h]
  simp

/-- C8: with a scraped-keys filter supplied, among two disappeared
suggestions exactly the one whose url is in the filter (and is otherwise
eligible) is marked OUTDATED; the other is untouched. -/
theorem scraped_filter_precision (a : SyncArgs) (F : List Val)
    (sA sB : Suggestion) (uA : Val)
    (hex : a.existingSuggestions = [sA, sB])
    (hnew : a.newData = [])
    (hscr : a.scrapedUrlsSet = some F)
    (hst : a.statusToSetForOutdated = Status.OUTDATED)
    (hA1 : sA.status = Status.NEW)
    (hA2 : isDeployedData sA.data = false)
    (hA3 : objGet sA.data "url" = some uA)
    (hA4 : uA.truthy = true)
    (hA5 : F.contains uA = true)
    (hB : passesScrapedFilter (some F) sB.data = false) :
    (syncSuggestions a).store = [{ sA with status := Status.OUTDATED }, sB] := by
  have hkeys : a.newData.map a.buildKey = ([] : List String) := by rw [hnew]; rfl
  have hsub : syncNewSubmissions a = [] := by
    unfold syncNewSubmissions; rw [hnew]; rfl
  have hnomem : ∀ s : Suggestion,
      (a.newData.map a.buildKey).contains (a.buildKey s.data) = false := by
    intro s; rw [hkeys]; rfl
  have heligA : eligibleForOutdating a.buildKey (a.newData.map a.buildKey)
      a.scrapedUrlsSet sA = true := by
    rw [hkeys, hscr]
    unfold eligibleForOutdating passesScrapedFilter
    rw [hA3]
    have hA5' : uA ∈ F := by simpa using hA5
    simp [hA1, hA2, hA4, hA5', outdatedExclusionStatuses]
  have heligB : eligibleForOutdating a.buildKey (a.newData.map a.buildKey)
      a.scrapedUrlsSet sB = false := by
    rw [hscr]
    unfold eligibleForOutdating
    rw [hB]
    simp
  have hoA : outdateOne a.buildKey (a.newData.map a.buildKey)
      a.statusToSetForOutdated a.scrapedUrlsSet sA
      = { sA with status := Status.OUTDATED } := by
    unfold outdateOne
    rw [heligA, hst]
    simp
  have hoB : outdateOne a.buildKey (a.newData.map a.buildKey)
      a.statusToSetForOutdated a.scrapedUrlsSet sB = sB := by
    unfold outdateOne
    rw [heligB]
    simp
  rw [sync_store_of_no_new a hsub]
  unfold syncUpdatedExisting handleOutdatedSuggestions
  rw [hex]
  simp only [List.map_cons, List.map_nil]
  rw [hoA, hoB,
    matchedUpdate_of_key_not_mem a _ (hnomem _),
    matchedUpdate_of_key_not_mem a _ (hnomem _)]

def wSuggA : Suggestion :=
  ⟨3, Status.NEW, [("url", Val.str "https://s.example/A")], "u"⟩

def wSuggB : Suggestion :=
  ⟨4, Status.NEW, [("url", Val.str "https://s.example/B")], "u"⟩

def wArgsC8 : SyncArgs :=
  { ctx := ⟨none⟩
    opportunity := ⟨"opp1", "site1", "broken-links"⟩
    newData := []
    buildKey := wBuildKey
    mapNewSuggestion := fun d => d
    mergeDataFunction := defaultMergeDataFunction
    mergeStatusFunction := defaultMergeStatusFunction
    statusToSetForOutdated := Status.OUTDATED
    scrapedUrlsSet := some [Val.str "https://s.example/A"]
    addSuggestionsOracle := fun _ => ⟨[], []⟩
    existingSuggestions := [wSuggA, wSuggB] }

/-- Witness for C8 at a concrete input: keys A and B, filter only A, no
new findings — only A is outdated. -/
theorem scraped_filter_precision_witness :
    wArgsC8.existingSuggestions = [wSuggA, wSuggB]
    ∧ (syncSuggestions wArgsC8).store
        = [{ wSuggA with status := Status.OUTDATED }, wSuggB] :=
  ⟨rfl,
    scraped_filter_precision wArgsC8 [Val.str "https://s.example/A"]
      wSuggA wSuggB (Val.str "https://s.example/A")
      rfl rfl rfl rfl rfl (by decide) (by decide) (by decide) (by decide)
      (by decide)⟩

/-- C3: under the default status-merge policy, a matched suggestion keeps
REJECTED, transitions OUTDATED to PENDING_VALIDATION (validation-requiring
site) or NEW, and keeps every other status. -/
theorem default_status_merge_on_match (a : SyncArgs) (i : Nat)
    (hi : i < a.existingSuggestions.length)
    (hms : a.mergeStatusFunction = defaultMergeStatusFunction)
    (hkey : (a.newData.map a.buildKey).contains
      (a.buildKey (a.existingSuggestions[i]).data) = true) :
    ((syncSuggestions a).store[i]?).map Suggestion.status =
      some (defaultStatusTransition (a.existingSuggestions[i]).status
        (siteRequiresValidation a.ctx)) := by
  rw [sync_store_getElem? a i hi, outdateOne_of_key_mem _ _ _ _ _ hkey,
    Option.map_some']
  rw [matchedUpdate_status_default a _ hms hkey]

def wSuggC3 : Suggestion :=
  ⟨5, Status.OUTDATED, [("url", Val.str "https://s.example/C")], "u"⟩

def wArgsC3 : SyncArgs :=
  { ctx := ⟨some ⟨true⟩⟩
    opportunity := ⟨"opp1", "site1", "broken-links"⟩
    newData := [[("url", Val.str "https://s.example/C")]]
    buildKey := wBuildKey
    mapNewSuggestion := fun d => d
    mergeDataFunction := defaultMergeDataFunction
    mergeStatusFunction := defaultMergeStatusFunction
    statusToSetForOutdated := Status.OUTDATED
    scrapedUrlsSet := none
    addSuggestionsOracle := fun _ => ⟨[], []⟩
    existingSuggestions := [wSuggC3] }

/-- Witness for C3 at a concrete input: an OUTDATED suggestion whose key
reappears on a validation-requiring site becomes PENDING_VALIDATION. -/
theorem default_status_merge_on_match_witness :
    0 < wArgsC3.existingSuggestions.length
    ∧ wSuggC3.status = Status.OUTDATED
    ∧ ((syncSuggestions wArgsC3).store[0]?).map Suggestion.status
        = some Status.PENDING_VALIDATION :=
  ⟨by decide, rfl,
    default_status_merge_on_match wArgsC3 0 (by decide) rfl (by decide)⟩

/-- C1: when the batch create reports at least one error item, the call
throws exactly when zero items were created, with the first error item's
error text included in (here: as a suffix of) the message; with at least
one created item it completes without throwing and logs the
partial-success warning. -/
theorem batch_create_failure_policy (a : SyncArgs) (e0 : ErrorItem)
    (hne : syncNewSubmissions a ≠ [])
    (hhead : (a.addSuggestionsOracle (syncNewSubmissions a)).errorItems.head?
      = some e0) :
    ((a.addSuggestionsOracle (syncNewSubmissions a)).createdItems = [] →
       ∃ m pre, (syncSuggestions a).thrown = some m ∧ m = pre ++ e0.error)
    ∧ ((a.addSuggestionsOracle (syncNewSubmissions a)).createdItems ≠ [] →
       (syncSuggestions a).thrown = none
       ∧ Event.logWarn (mkSomeFailedWarn
           ((a.addSuggestionsOracle (syncNewSubmissions a)).createdItems.length)
           ((a.addSuggestionsOracle (syncNewSubmissions a)).errorItems.length))
         ∈ (syncSuggestions a).events) := by
  have hlen : (syncNewSubmissions a).length > 0 := List.length_pos.mpr hne
  have herr : (a.addSuggestionsOracle (syncNewSubmissions a)).errorItems.length > 0 := by
    cases he : (a.addSuggestionsOracle (syncNewSubmissions a)).errorItems with
    | nil => rw [he] at hhead; exact absurd hhead (by simp)
    | cons x xs => simp
  constructor
  · intro hc
    have hcle : (a.addSuggestionsOracle (syncNewSubmissions a)).createdItems.length ≤ 0 := by
      rw [hc]; exact Nat.le_refl 0
    unfold syncSuggestions
    dsimp only
    rw [if_pos hlen, if_pos herr, if_pos hcle]
    dsimp only
    rw [hhead]
    dsimp only
    by_cases hE : e0.error = ""
    · rw [if_pos hE]
      refine ⟨_, mkFailMessage
        (if a.opportunity.siteId = "" then "unknown" else a.opportunity.siteId)
        "Unknown error", rfl, ?_⟩
      rw [hE]
      simp
    · rw [if_neg hE]
      exact ⟨_, "Failed to create suggestions for siteId "
        ++ (if a.opportunity.siteId = "" then "unknown" else a.opportunity.siteId)
        ++ ". Sample error: ", rfl, rfl⟩
  · intro hc
    have hcgt : ¬ (a.addSuggestionsOracle (syncNewSubmissions a)).createdItems.length ≤ 0 := by
      simpa [Nat.pos_iff_ne_zero, List.length_eq_zero] using hc
    unfold syncSuggestions
    dsimp only
    rw [if_pos hlen, if_pos herr, if_neg hcgt]
    exact ⟨rfl, by simp⟩

def wArgsC1 : SyncArgs :=
  { ctx := ⟨none⟩
    opportunity := ⟨"opp1", "site1", "broken-links"⟩
    newData := [[("url", Val.str "https://s.example/D")]]
    buildKey := wBuildKey
    mapNewSuggestion := fun d => d
    mergeDataFunction := defaultMergeDataFunction
    mergeStatusFunction := defaultMergeStatusFunction
    statusToSetForOutdated := Status.OUTDATED
    scrapedUrlsSet := none
    addSuggestionsOracle := fun _ => ⟨[], [⟨"boom"⟩]⟩
    existingSuggestions := [] }

/-- Witness for C1 at a concrete input: zero created and one errored item
makes the call throw with the sample error text in the message. -/
theorem batch_create_failure_policy_witness :
    syncNewSubmissions wArgsC1 ≠ []
    ∧ (wArgsC1.addSuggestionsOracle (syncNewSubmissions wArgsC1)).errorItems.head?
        = some ⟨"boom"⟩
    ∧ ∃ m pre, (syncSuggestions wArgsC1).thrown = some m
        ∧ m = pre ++ "boom" :=
  ⟨by decide, rfl,
    (batch_create_failure_policy wArgsC1 ⟨"boom"⟩ (by decide) rfl).1 rfl⟩

/-! ## Fix publication pipeline claims -/

/-- C6: with a current-run finding set and key function supplied, a fix
entity one of whose linked suggestions fetches successfully and still has
its key among the current findings is deemed not resolved, and the
production-resolution predicate is never invoked for any of its linked
suggestions. -/
theorem fast_path_short_circuit (a : PublishArgs) (fe : FixEntity)
    (dataList : List Obj) (bk : Obj → String) (sid : String) (s : Suggestion)
    (hcd : a.currentAuditData = some dataList)
    (hbk : a.buildKey = some bk)
    (hsid : sid ∈ fe.suggestionIds)
    (hfetch : fetchFirst a sid = Except.ok (some s))
    (hkey : (dataList.map bk).contains (bk s.data) = true) :
    (∀ r, (checkFixEntity a fe).1 = Except.ok r → r.allResolved = false)
    ∧ (∀ i, Event.prodCheck i ∉ (checkFixEntity a fe).2) := by
  unfold checkFixEntity
  dsimp only
  split
  · constructor
    · intro r h
      cases h
      rfl
    · intro i h
      simp at h
  · split
    · constructor
      · intro r h
        cases h
      · intro i h
        rcases List.mem_map.mp h with ⟨sid', -, heq⟩
        cases heq
    · split
      · constructor
        · intro r h
          cases h
          rfl
        · intro i h
          rcases List.mem_map.mp h with ⟨sid', -, heq⟩
          cases heq
      · next hfast =>
          exfalso
          apply hfast
          refine List.any_eq_true.mpr ⟨some s, ?_, ?_⟩
          · refine List.mem_filterMap.mpr ⟨Except.ok (some s), ?_, rfl⟩
            rw [← hfetch]
            exact List.mem_map_of_mem _ hsid
          · rw [hcd, hbk]
            dsimp only
            exact hkey

def wSuggC6 : Suggestion :=
  ⟨11, Status.NEW, [("url", Val.str "https://s.example/E")], "u"⟩

def wFixC6 : FixEntity := ⟨10, ["sid1"], FixStatus.DEPLOYED⟩

def wArgsC6 : PublishArgs :=
  { opportunityId := "opp6"
    apisAvailable := true
    fixEntityLookup := Except.ok [wFixC6]
    fetchSuggestionList := fun _ => Except.ok [wSuggC6]
    currentAuditData := some [[("url", Val.str "https://s.example/E")]]
    buildKey := some wBuildKey
    isIssueResolvedOnProduction := some (fun _ => Except.ok true)
    saveFixEntityResult := fun _ => Except.ok () }

/-- Witness for C6 at a concrete input: the linked suggestion's key is
still found this run, so no production check event is emitted. -/
theorem fast_path_short_circuit_witness :
    "sid1" ∈ wFixC6.suggestionIds
    ∧ fetchFirst wArgsC6 "sid1" = Except.ok (some wSuggC6)
    ∧ Event.prodCheck 11 ∉ (checkFixEntity wArgsC6 wFixC6).2 :=
  ⟨by decide, rfl,
    (fast_path_short_circuit wArgsC6 wFixC6
      [[("url", Val.str "https://s.example/E")]] wBuildKey "sid1" wSuggC6
      rfl rfl (by decide) rfl (by decide)).2 11⟩

/-- A successful `checkFixEntity` result carries the checked entity. -/
theorem checkFixEntity_fixEntity_eq (a : PublishArgs) (fe : FixEntity)
    (r : CheckResult) (h : (checkFixEntity a fe).1 = Except.ok r) :
    r.fixEntity = fe := by
  unfold checkFixEntity at h
  dsimp only at h
  split at h
  · cases h; rfl
  · split at h
    · cases h
    · split at h
      · cases h; rfl
      · cases h; rfl

/-- A fix entity resolved by `checkFixEntity` has linked suggestion
identifiers, all of them fetch a present suggestion, and the
production-resolution predicate returned true for every fetched
suggestion. -/
theorem checkFixEntity_resolved_conditions (a : PublishArgs) (fe : FixEntity)
    (h : (checkFixEntity a fe).1 = Except.ok ⟨fe, true⟩) :
    fe.suggestionIds ≠ []
    ∧ ∀ sid ∈ fe.suggestionIds, ∃ s, fetchFirst a sid = Except.ok (some s)
        ∧ ∃ p, a.isIssueResolvedOnProduction = some p ∧ p s = Except.ok true := by
  unfold checkFixEntity at h
  dsimp only at h
  split at h
  · exact absurd (congrArg CheckResult.allResolved (Except.ok.inj h)) (by simp)
  · next hempty =>
      have hne : fe.suggestionIds ≠ [] := by
        intro hnil
        rw [hnil] at hempty
        exact hempty rfl
      split at h
      · cases h
      · next hok =>
          split at h
          · exact absurd (congrArg CheckResult.allResolved (Except.ok.inj h)) (by simp)
          · next hfast =>
              have hall := congrArg CheckResult.allResolved (Except.ok.inj h)
              dsimp at hall
              refine ⟨hne, ?_⟩
              intro sid hsid
              have hfet : fetchFirst a sid ∈ fe.suggestionIds.map (fetchFirst a) :=
                List.mem_map_of_mem _ hsid
              have hokf : (fetchFirst a sid).toBool = true := by
                by_contra hbad
                apply hok
                refine List.any_eq_true.mpr ⟨fetchFirst a sid, hfet, ?_⟩
                simpa using hbad
              obtain ⟨o, ho⟩ : ∃ o, fetchFirst a sid = Except.ok o := by
                cases hf : fetchFirst a sid with
                | ok o => exact ⟨o, rfl⟩
                | error e => rw [hf] at hokf; cases hokf
              have homem : o ∈ (fe.suggestionIds.map (fetchFirst a)).filterMap
                  (fun r => match r with | .ok o => some o | .error _ => none) := by
                refine List.mem_filterMap.mpr ⟨Except.ok o, ?_, rfl⟩
                rw [← ho]
                exact hfet
              obtain ⟨s, rfl⟩ : ∃ s, o = some s := by
                cases o with
                | some s => exact ⟨s, rfl⟩
                | none =>
                    exfalso
                    apply hfast
                    exact List.any_eq_true.mpr ⟨none, homem, rfl⟩
              refine ⟨s, ho, ?_⟩
              have hmapped : runProdCheck a.isIssueResolvedOnProduction s ∈
                  ((fe.suggestionIds.map (fetchFirst a)).filterMap
                    (fun r => match r with | .ok o => some o | .error _ => none)).map
                    (fun o => match o with
                      | some s => runProdCheck a.isIssueResolvedOnProduction s
                      | none => (some false, [])) := by
                have := List.mem_map_of_mem
                  (fun o => match o with
                    | some s => runProdCheck a.isIssueResolvedOnProduction s
                    | none => ((some false : Option Bool), ([] : List Event))) homem
                simpa using this
              have hbeq := List.all_eq_true.mp hall _ hmapped
              have heq : (runProdCheck a.isIssueResolvedOnProduction s).1 = some true := by
                simpa using hbeq
              unfold runProdCheck at heq
              cases hcb : a.isIssueResolvedOnProduction with
              | none => rw [hcb] at heq; simp at heq
              | some p =>
                  rw [hcb] at heq
                  dsimp only at heq
                  refine ⟨p, rfl, ?_⟩
                  cases hps : p s with
                  | ok b =>
                      rw [hps] at heq
                      simp at heq
                      rw [heq]
                  | error e => rw [hps] at heq; simp at heq

/-- C7: the publication pipeline transitions a fix entity to PUBLISHED
only when it came back from the DEPLOYED lookup, has at least one linked
suggestion identifier, every linked identifier fetches a present
suggestion, and the production-resolution predicate returned true for all
of them; an empty identifier list or a missing suggestion therefore never
publishes. -/
theorem publish_only_if_all_resolved (a : PublishArgs) (fe' : FixEntity)
    (h : fe' ∈ (publishDeployedFixEntities a).published) :
    ∃ fes fe, a.fixEntityLookup = Except.ok fes ∧ fe ∈ fes
      ∧ fe' = { fe with status := FixStatus.PUBLISHED }
      ∧ fe.suggestionIds ≠ []
      ∧ ∀ sid ∈ fe.suggestionIds, ∃ s, fetchFirst a sid = Except.ok (some s)
          ∧ ∃ p, a.isIssueResolvedOnProduction = some p ∧ p s = Except.ok true := by
  unfold publishDeployedFixEntities at h
  dsimp only at h
  split at h
  · simp at h
  · split at h
    · simp at h
    · next fes hlook =>
        split at h
        · simp at h
        · dsimp only at h
          rcases List.mem_map.mp h with ⟨t, ht, hte⟩
          rcases List.mem_map.mp ht with ⟨fe, hfe, hft⟩
          have hte' : fe' = { fe with status := FixStatus.PUBLISHED } := by
            rw [← hte, ← hft]
            cases a.saveFixEntityResult { fe with status := FixStatus.PUBLISHED } <;> rfl
          rcases List.mem_filterMap.mp hfe with ⟨c, hc, hcf⟩
          rcases List.mem_map.mp hc with ⟨fe0, hfe0, hcfe0⟩
          obtain ⟨r, hc1, hrfe, hr⟩ : ∃ r, c.1 = Except.ok r
              ∧ r.fixEntity = fe ∧ r.allResolved = true := by
            cases hc1 : c.1 with
            | error e => rw [hc1] at hcf; cases hcf
            | ok r =>
                rw [hc1] at hcf
                dsimp only at hcf
                split at hcf
                · next hra => exact ⟨r, rfl, Option.some.inj hcf, hra⟩
                · cases hcf
          have hres : c.1 = Except.ok ⟨fe, true⟩ := by
            rw [hc1]
            cases r with
            | mk rfe rres =>
                dsimp only at hrfe hr
                rw [hrfe, hr]
          have hfee : fe = fe0 := by
            simpa using checkFixEntity_fixEntity_eq a fe0 ⟨fe, true⟩
              (by rw [hcfe0]; exact hres)
          subst hfee
          have hcond := checkFixEntity_resolved_conditions a fe (by rw [hcfe0]; exact hres)
          exact ⟨fes, fe, hlook, hfe0, hte', hcond.1, hcond.2⟩

def wSuggC7 : Suggestion :=
  ⟨21, Status.NEW, [("url", Val.str "https://s.example/F")], "u"⟩

def wFixC7 : FixEntity := ⟨20, ["sidF"], FixStatus.DEPLOYED⟩

def wArgsC7 : PublishArgs :=
  { opportunityId := "opp7"
    apisAvailable := true
    fixEntityLookup := Except.ok [wFixC7]
    fetchSuggestionList := fun _ => Except.ok [wSuggC7]
    currentAuditData := some []
    buildKey := some wBuildKey
    isIssueResolvedOnProduction := some (fun _ => Except.ok true)
    saveFixEntityResult := fun _ => Except.ok () }

/-- Witness for C7 at a concrete input: a deployed fix entity with one
linked, present, production-resolved suggestion is published, and the
necessary conditions hold. -/
theorem publish_only_if_all_resolved_witness :
    ({ wFixC7 with status := FixStatus.PUBLISHED } : FixEntity)
        ∈ (publishDeployedFixEntities wArgsC7).published
    ∧ ∃ fes fe, wArgsC7.fixEntityLookup = Except.ok fes ∧ fe ∈ fes
        ∧ ({ wFixC7 with status := FixStatus.PUBLISHED } : FixEntity)
            = { fe with status := FixStatus.PUBLISHED }
        ∧ fe.suggestionIds ≠ []
        ∧ ∀ sid ∈ fe.suggestionIds, ∃ s,
            fetchFirst wArgsC7 sid = Except.ok (some s)
            ∧ ∃ p, wArgsC7.isIssueResolvedOnProduction = some p
                ∧ p s = Except.ok true :=
  ⟨by decide, publish_only_if_all_resolved wArgsC7 _ (by decide)⟩

/-! ## Best-effort stages (C9) -/

/-- The save of a suggestion the reconciler marks FIXED is always
attempted, whatever the save and builder results are. -/
theorem processFixed_save_attempt (ra : ReconcileArgs) (s : Suggestion) :
    Event.saveFixAttempt s.id ∈ (processFixed ra s).2.2 := by
  unfold processFixed
  dsimp only
  split
  · simp
  · split
    · simp
    · split <;> simp

/-- A failing save of a FIXED-marked suggestion is logged. -/
theorem processFixed_save_fail_log (ra : ReconcileArgs) (s : Suggestion)
    (msg : String)
    (h : ra.saveSuggestionResult (markFixed s) = Except.error msg) :
    Event.logWarn ("Failed to mark suggestion " ++ toString s.id
      ++ " as FIXED: " ++ msg) ∈ (processFixed ra s).2.2 := by
  unfold processFixed
  dsimp only
  rw [h]
  simp

/-- A failing fix-entity payload builder is logged (the save succeeded,
so the builder ran). -/
theorem processFixed_builder_fail_log (ra : ReconcileArgs) (s : Suggestion)
    (bd : Suggestion → Except String (Option FixPayload)) (msg : String)
    (hb : ra.buildFixEntityPayload = some bd)
    (hsv : ra.saveSuggestionResult (markFixed s) = Except.ok ())
    (hbe : bd (markFixed s) = Except.error msg) :
    Event.logWarn ("Failed building fix entity for suggestion "
      ++ toString s.id ++ ": " ++ msg) ∈ (processFixed ra s).2.2 := by
  unfold processFixed
  dsimp only
  rw [hsv]
  dsimp only
  rw [hb]
  dsimp only
  rw [hbe]
  simp

/-- Events of one FIXED-marked suggestion's processing reach the
reconciler's trace, independently of every other suggestion's outcome. -/
theorem reconcile_process_events_sub (ra : ReconcileArgs) (s : Suggestion)
    (hs : s ∈ ra.disappearedSuggestions)
    (hmf : reconcileMarksFixed ra s = true)
    (e : Event) (he : e ∈ (processFixed ra s).2.2) :
    e ∈ (reconcileDisappearedSuggestions ra).events := by
  have hmf' := hmf
  unfold reconcileMarksFixed at hmf'
  rw [Bool.and_eq_true] at hmf'
  have hnew : decide (s.status = Status.NEW) = true := hmf'.1
  have hcand : s ∈ ra.disappearedSuggestions.filter
      (fun s => decide (s.status = Status.NEW)) :=
    List.mem_filter.mpr ⟨hs, hnew⟩
  unfold reconcileDisappearedSuggestions
  dsimp only
  rw [if_neg (by
    intro hemp
    rw [List.isEmpty_iff] at hemp
    rw [hemp] at hcand
    cases hcand)]
  dsimp only
  apply List.mem_append.mpr
  left
  apply List.mem_append.mpr
  right
  refine List.mem_flatMap.mpr ⟨processFixed ra s, ?_, he⟩
  apply List.mem_map_of_mem
  exact List.mem_filter.mpr ⟨hcand, hmf⟩

/-- Every linked suggestion of a checked fix entity is fetched, whatever
the fetches, the fast path and the checks then decide. -/
theorem checkFixEntity_fetch_events (pa : PublishArgs) (fe : FixEntity)
    (sid : String) (hsid : sid ∈ fe.suggestionIds) :
    Event.fetchSuggestion sid ∈ (checkFixEntity pa fe).2 := by
  unfold checkFixEntity
  dsimp only
  split
  · next hemp =>
      rw [List.isEmpty_iff.mp hemp] at hsid
      cases hsid
  · split
    · exact List.mem_map_of_mem _ hsid
    · split
      · exact List.mem_map_of_mem _ hsid
      · exact List.mem_append.mpr (Or.inl (List.mem_map_of_mem _ hsid))

/-- Events of one fix entity's check reach the pipeline's trace,
independently of every other entity's outcome. -/
theorem publish_check_events_sub (pa : PublishArgs) (fes : List FixEntity)
    (fe : FixEntity) (happ : pa.apisAvailable = true)
    (hlook : pa.fixEntityLookup = Except.ok fes) (hfe : fe ∈ fes)
    (e : Event) (he : e ∈ (checkFixEntity pa fe).2) :
    e ∈ (publishDeployedFixEntities pa).events := by
  unfold publishDeployedFixEntities
  dsimp only
  rw [if_neg (by rw [happ]; simp), hlook]
  dsimp only
  rw [if_neg (by
    intro hemp
    rw [List.isEmpty_iff.mp hemp] at hfe
    cases hfe)]
  dsimp only
  apply List.mem_append.mpr
  left
  apply List.mem_append.mpr
  right
  exact List.mem_flatMap.mpr ⟨checkFixEntity pa fe, List.mem_map_of_mem _ hfe, he⟩

/-- A fix entity whose check resolved gets its save attempted, whatever
the other entities' checks and saves did, and a failing save is logged. -/
theorem publish_resolved_entity_events (pa : PublishArgs)
    (fes : List FixEntity) (fe : FixEntity)
    (happ : pa.apisAvailable = true)
    (hlook : pa.fixEntityLookup = Except.ok fes) (hfe : fe ∈ fes)
    (hres : (checkFixEntity pa fe).1 = Except.ok ⟨fe, true⟩) :
    Event.saveFixEntity fe.id ∈ (publishDeployedFixEntities pa).events
    ∧ ∀ msg, pa.saveFixEntityResult { fe with status := FixStatus.PUBLISHED }
        = Except.error msg →
      Event.logWarn ("Failed to save fix entity: " ++ msg)
        ∈ (publishDeployedFixEntities pa).events := by
  unfold publishDeployedFixEntities
  dsimp only
  rw [if_neg (by rw [happ]; simp), hlook]
  dsimp only
  rw [if_neg (by
    intro hemp
    rw [List.isEmpty_iff.mp hemp] at hfe
    cases hfe)]
  dsimp only
  have hresolved : fe ∈ (fes.map (checkFixEntity pa)).filterMap
      (fun c =>
        match c.1 with
        | Except.ok r => if r.allResolved then some r.fixEntity else none
        | Except.error _ => none) := by
    refine List.mem_filterMap.mpr ⟨checkFixEntity pa fe, List.mem_map_of_mem _ hfe, ?_⟩
    rw [hres]
    rfl
  constructor
  · apply List.mem_append.mpr
    right
    apply List.mem_flatMap.mpr
    cases hsv : pa.saveFixEntityResult { fe with status := FixStatus.PUBLISHED } with
    | ok u =>
        refine ⟨({ fe with status := FixStatus.PUBLISHED },
          [Event.saveFixEntity fe.id]), ?_, by simp⟩
        refine List.mem_map.mpr ⟨fe, hresolved, ?_⟩
        rw [hsv]
    | error msg' =>
        refine ⟨({ fe with status := FixStatus.PUBLISHED },
          [Event.saveFixEntity fe.id,
           Event.logWarn ("Failed to save fix entity: " ++ msg')]), ?_, by simp⟩
        refine List.mem_map.mpr ⟨fe, hresolved, ?_⟩
        rw [hsv]
  · intro msg hmsg
    apply List.mem_append.mpr
    right
    apply List.mem_flatMap.mpr
    refine ⟨({ fe with status := FixStatus.PUBLISHED },
      [Event.saveFixEntity fe.id,
       Event.logWarn ("Failed to save fix entity: " ++ msg)]), ?_, by simp⟩
    refine List.mem_map.mpr ⟨fe, hresolved, ?_⟩
    rw [hmsg]

/-- A rejected DEPLOYED lookup is caught and logged. -/
theorem publish_lookup_fail_log (pa : PublishArgs) (msg : String)
    (happ : pa.apisAvailable = true)
    (hlook : pa.fixEntityLookup = Except.error msg) :
    Event.logWarn ("Failed to publish deployed fix entities: " ++ msg)
      ∈ (publishDeployedFixEntities pa).events := by
  unfold publishDeployedFixEntities
  dsimp only
  rw [if_neg (by rw [happ]; simp), hlook]
  simp

/-- C9: both best-effort stages are exception-safe and item-independent.
Neither `reconcileDisappearedSuggestions` nor `publishDeployedFixEntities`
ever propagates an exception, whatever the injected predicates, builders
and store operations do (including throwing). In the reconciler, every
disappeared NEW-status suggestion's fixed-check runs, every FIXED-marked
suggestion's save is attempted, and a failing save or builder is logged —
all independently of every other suggestion's outcome. In the publish
pipeline (APIs available), every looked-up fix entity's linked suggestions
are fetched and every resolved entity's save is attempted — independently
of every other entity's outcome — with failing saves logged, and a
rejected lookup is itself caught and logged. -/
theorem best_effort_stages_never_throw (ra : ReconcileArgs) (pa : PublishArgs) :
    (reconcileDisappearedSuggestions ra).thrown = none
    ∧ (publishDeployedFixEntities pa).thrown = none
    ∧ (∀ s ∈ ra.disappearedSuggestions, s.status = Status.NEW →
        ∀ f, ra.isIssueFixedWithAISuggestion = some f →
          Event.fixedCheck s.id ∈ (reconcileDisappearedSuggestions ra).events)
    ∧ (∀ s ∈ ra.disappearedSuggestions, reconcileMarksFixed ra s = true →
        Event.saveFixAttempt s.id ∈ (reconcileDisappearedSuggestions ra).events
        ∧ (∀ msg, ra.saveSuggestionResult (markFixed s) = Except.error msg →
            Event.logWarn ("Failed to mark suggestion " ++ toString s.id
              ++ " as FIXED: " ++ msg)
              ∈ (reconcileDisappearedSuggestions ra).events)
        ∧ (∀ bd msg, ra.buildFixEntityPayload = some bd →
            ra.saveSuggestionResult (markFixed s) = Except.ok () →
            bd (markFixed s) = Except.error msg →
            Event.logWarn ("Failed building fix entity for suggestion "
              ++ toString s.id ++ ": " ++ msg)
              ∈ (reconcileDisappearedSuggestions ra).events))
    ∧ (∀ fes, pa.apisAvailable = true → pa.fixEntityLookup = Except.ok fes →
        (∀ fe ∈ fes, ∀ sid ∈ fe.suggestionIds,
          Event.fetchSuggestion sid ∈ (publishDeployedFixEntities pa).events)
        ∧ (∀ fe ∈ fes, (checkFixEntity pa fe).1 = Except.ok ⟨fe, true⟩ →
            Event.saveFixEntity fe.id ∈ (publishDeployedFixEntities pa).events
            ∧ ∀ msg, pa.saveFixEntityResult
                { fe with status := FixStatus.PUBLISHED } = Except.error msg →
              Event.logWarn ("Failed to save fix entity: " ++ msg)
                ∈ (publishDeployedFixEntities pa).events))
    ∧ (∀ msg, pa.apisAvailable = true → pa.fixEntityLookup = Except.error msg →
        Event.logWarn ("Failed to publish deployed fix entities: " ++ msg)
          ∈ (publishDeployedFixEntities pa).events) := by
  refine ⟨?_, ?_, ?_, ?_, ?_, ?_⟩
  · unfold reconcileDisappearedSuggestions
    dsimp only
    split <;> rfl
  · unfold publishDeployedFixEntities
    dsimp only
    split
    · rfl
    · split
      · rfl
      · split <;> rfl
  · intro s hs hnew f hf
    have hcand : s ∈ ra.disappearedSuggestions.filter
        (fun s => decide (s.status = Status.NEW)) :=
      List.mem_filter.mpr ⟨hs, by rw [hnew]; rfl⟩
    unfold reconcileDisappearedSuggestions
    dsimp only
    rw [if_neg (by
      intro hemp
      rw [List.isEmpty_iff] at hemp
      rw [hemp] at hcand
      cases hcand)]
    dsimp only
    apply List.mem_append.mpr
    left
    apply List.mem_append.mpr
    left
    refine List.mem_flatMap.mpr ⟨s, hcand, ?_⟩
    unfold runFixedCheck
    rw [hf]
    cases hfs : f s <;> simp [hfs]
  · intro s hs hmf
    refine ⟨?_, ?_, ?_⟩
    · exact reconcile_process_events_sub ra s hs hmf _
        (processFixed_save_attempt ra s)
    · intro msg hmsg
      exact reconcile_process_events_sub ra s hs hmf _
        (processFixed_save_fail_log ra s msg hmsg)
    · intro bd msg hb hsv hbe
      exact reconcile_process_events_sub ra s hs hmf _
        (processFixed_builder_fail_log ra s bd msg hb hsv hbe)
  · intro fes happ hlook
    refine ⟨?_, ?_⟩
    · intro fe hfe sid hsid
      exact publish_check_events_sub pa fes fe happ hlook hfe _
        (checkFixEntity_fetch_events pa fe sid hsid)
    · intro fe hfe hres
      exact publish_resolved_entity_events pa fes fe happ hlook hfe hres
  · intro msg happ hlook
    exact publish_lookup_fail_log pa msg happ hlook

def wSuggC9 : Suggestion :=
  ⟨31, Status.NEW, [("url", Val.str "https://s.example/G")], "u"⟩

def wFixedCheckC9 : Suggestion → Except String Bool :=
  fun _ => Except.ok true

def wArgsC9r : ReconcileArgs :=
  { disappearedSuggestions := [wSuggC9]
    isIssueFixedWithAISuggestion := some wFixedCheckC9
    buildFixEntityPayload := some (fun _ => Except.error "builder broke")
    saveSuggestionResult := fun _ => Except.error "save failed"
    addFixEntitiesResult := fun _ => Except.error "add failed"
    hasAddFixEntities := true
    isAuthorOnly := false }

def wArgsC9p : PublishArgs :=
  { opportunityId := "opp9"
    apisAvailable := true
    fixEntityLookup := Except.error "db down"
    fetchSuggestionList := fun _ => Except.error "db down"
    currentAuditData := none
    buildKey := none
    isIssueResolvedOnProduction := some (fun _ => Except.error "http down")
    saveFixEntityResult := fun _ => Except.error "save failed" }

/-- Witness for C9 at a concrete input: with the store save, the builder,
the fix-entity add and the whole publish lookup throwing, both stages
return without propagating, the candidate's check and save are still
attempted, and the save and lookup failures are logged. -/
theorem best_effort_stages_never_throw_witness :
    wSuggC9 ∈ wArgsC9r.disappearedSuggestions
    ∧ reconcileMarksFixed wArgsC9r wSuggC9 = true
    ∧ wArgsC9r.saveSuggestionResult (markFixed wSuggC9)
        = Except.error "save failed"
    ∧ (reconcileDisappearedSuggestions wArgsC9r).thrown = none
    ∧ (publishDeployedFixEntities wArgsC9p).thrown = none
    ∧ Event.fixedCheck wSuggC9.id
        ∈ (reconcileDisappearedSuggestions wArgsC9r).events
    ∧ Event.saveFixAttempt wSuggC9.id
        ∈ (reconcileDisappearedSuggestions wArgsC9r).events
    ∧ Event.logWarn ("Failed to mark suggestion " ++ toString wSuggC9.id
        ++ " as FIXED: " ++ "save failed")
        ∈ (reconcileDisappearedSuggestions wArgsC9r).events
    ∧ Event.logWarn ("Failed to publish deployed fix entities: " ++ "db down")
        ∈ (publishDeployedFixEntities wArgsC9p).events :=
  ⟨by decide, by decide, rfl,
    (best_effort_stages_never_throw wArgsC9r wArgsC9p).1,
    (best_effort_stages_never_throw wArgsC9r wArgsC9p).2.1,
    (best_effort_stages_never_throw wArgsC9r wArgsC9p).2.2.1 wSuggC9 (by decide)
      rfl wFixedCheckC9 rfl,
    ((best_effort_stages_never_throw wArgsC9r wArgsC9p).2.2.2.1 wSuggC9
      (by decide) (by decide)).1,
    ((best_effort_stages_never_throw wArgsC9r wArgsC9p).2.2.2.1 wSuggC9
      (by decide) (by decide)).2.1 "save failed" rfl,
    (best_effort_stages_never_throw wArgsC9r wArgsC9p).2.2.2.2.2 "db down"
      rfl rfl⟩

/-! ## Author-only skip (C5) -/

/-- The observable operations only the fix publication pipeline performs:
the DEPLOYED fix-entity lookup, linked-suggestion fetches, production
checks and fix-entity saves. -/
def isPublishPipelineEvent : Event → Bool
  | .fixEntityLookup _ => true
  | .fetchSuggestion _ => true
  | .prodCheck _ => true
  | .saveFixEntity _ => true
  | _ => false

theorem runFixedCheck_events_classified
    (cb : Option (Suggestion → Except String Bool)) (s : Suggestion) :
    ∀ e ∈ (runFixedCheck cb s).2, isPublishPipelineEvent e = false := by
  intro e he
  unfold runFixedCheck at he
  cases cb with
  | none => simp at he
  | some f =>
      dsimp only at he
      cases hfs : f s <;> rw [hfs] at he <;> simp at he <;> subst he <;> rfl

theorem processFixed_events_classified (ra : ReconcileArgs) (s : Suggestion) :
    ∀ e ∈ (processFixed ra s).2.2, isPublishPipelineEvent e = false := by
  intro e he
  unfold processFixed at he
  dsimp only at he
  split at he
  · simp at he
    rcases he with rfl | rfl <;> rfl
  · split at he
    · simp at he
      subst he
      rfl
    · split at he
      · simp at he; subst he; rfl
      · simp at he; subst he; rfl
      · simp at he; rcases he with rfl | rfl <;> rfl

theorem reconcile_events_classified (ra : ReconcileArgs) :
    ∀ e ∈ (reconcileDisappearedSuggestions ra).events,
      isPublishPipelineEvent e = false := by
  intro e he
  unfold reconcileDisappearedSuggestions at he
  dsimp only at he
  split at he
  · simp at he
  · dsimp only at he
    rcases List.mem_append.mp he with h1 | h2
    · rcases List.mem_append.mp h1 with h3 | h4
      · rcases List.mem_flatMap.mp h3 with ⟨s, -, hin⟩
        exact runFixedCheck_events_classified _ s e hin
      · rcases List.mem_flatMap.mp h4 with ⟨t, ht, hin⟩
        rcases List.mem_map.mp ht with ⟨s, -, rfl⟩
        exact processFixed_events_classified ra s e hin
    · revert h2
      split
      · split
        · intro h2; simp at h2; subst h2; rfl
        · intro h2; simp at h2; rcases h2 with rfl | rfl <;> rfl
      · intro h2; simp at h2

theorem handleOutdated_events_classified (bk : Obj → String)
    (keys : List String) (st : Status) (scr : Option (List Val))
    (ex : List Suggestion) :
    ∀ e ∈ (handleOutdatedSuggestions bk keys st scr ex).events,
      isPublishPipelineEvent e = false := by
  intro e he
  unfold handleOutdatedSuggestions at he
  dsimp only at he
  split at he
  · simp at he
  · simp at he; subst he; rfl

theorem sync_events_classified (a : SyncArgs) :
    ∀ e ∈ (syncSuggestions a).events, isPublishPipelineEvent e = false := by
  have hbase : ∀ e' ∈ (handleOutdatedSuggestions a.buildKey
      (a.newData.map a.buildKey) a.statusToSetForOutdated a.scrapedUrlsSet
      a.existingSuggestions).events, isPublishPipelineEvent e' = false :=
    handleOutdated_events_classified _ _ _ _ _
  have hupd : ∀ e' ∈ ((handleOutdatedSuggestions a.buildKey
      (a.newData.map a.buildKey) a.statusToSetForOutdated a.scrapedUrlsSet
      a.existingSuggestions).store.filter
        (fun s => (a.newData.map a.buildKey).contains (a.buildKey s.data))).map
        (fun s => Event.saveSuggestion s.id),
      isPublishPipelineEvent e' = false := by
    intro e' he'
    rcases List.mem_map.mp he' with ⟨s, -, rfl⟩
    rfl
  intro e he
  unfold syncSuggestions at he
  dsimp only at he
  split at he
  · split at he
    · split at he
      · dsimp only at he
        rcases List.mem_append.mp he with h1 | h2
        · rcases List.mem_append.mp h1 with h3 | h4
          · exact hbase e h3
          · exact hupd e h4
        · simp at h2; subst h2; rfl
      · dsimp only at he
        rcases List.mem_append.mp he with h1 | h2
        · rcases List.mem_append.mp h1 with h3 | h4
          · rcases List.mem_append.mp h3 with h5 | h6
            · exact hbase e h5
            · exact hupd e h6
          · simp at h4; subst h4; rfl
        · simp at h2; subst h2; rfl
    · dsimp only at he
      rcases List.mem_append.mp he with h1 | h2
      · rcases List.mem_append.mp h1 with h3 | h4
        · exact hbase e h3
        · exact hupd e h4
      · simp at h2; subst h2; rfl
  · dsimp only at he
    rcases List.mem_append.mp he with h1 | h2
    · exact hbase e h1
    · exact hupd e h2

/-- C5: for an opportunity whose type is in the author-only set, the
orchestrator performs no fix publication pipeline operation at all: no
DEPLOYED fix-entity lookup, no linked-suggestion fetch, no production
check, no fix-entity save — even when a production-resolution callback is
supplied. -/
theorem author_only_skip (a : OrchestratorArgs)
    (h : a.sync.opportunity.oppType ∈ AUTHOR_ONLY_OPPORTUNITY_TYPES) :
    (∀ oppId, Event.fixEntityLookup oppId
        ∉ (syncSuggestionsWithPublishDetection a).events)
    ∧ (∀ sid, Event.fetchSuggestion sid
        ∉ (syncSuggestionsWithPublishDetection a).events)
    ∧ (∀ i, Event.prodCheck i
        ∉ (syncSuggestionsWithPublishDetection a).events)
    ∧ (∀ i, Event.saveFixEntity i
        ∉ (syncSuggestionsWithPublishDetection a).events) := by
  have hao : AUTHOR_ONLY_OPPORTUNITY_TYPES.contains a.sync.opportunity.oppType
      = true := by simpa using h
  have hmain : ∀ e ∈ (syncSuggestionsWithPublishDetection a).events,
      isPublishPipelineEvent e = false := by
    intro e he
    unfold syncSuggestionsWithPublishDetection at he
    dsimp only at he
    rw [if_pos hao] at he
    rcases List.mem_append.mp he with h1 | h2
    · rcases List.mem_append.mp h1 with h3 | h4
      · revert h3
        split
        · intro h3
          exact reconcile_events_classified _ e h3
        · intro h3
          simp at h3
      · simp at h4; subst h4; rfl
    · exact sync_events_classified _ e h2
  refine ⟨?_, ?_, ?_, ?_⟩ <;>
    · intro x hx
      have := hmain _ hx
      simp [isPublishPipelineEvent] at this

def wArgsC5 : OrchestratorArgs :=
  { sync :=
      { ctx := ⟨none⟩
        opportunity := ⟨"opp5", "site5", "security-permissions"⟩
        newData := []
        buildKey := wBuildKey
        mapNewSuggestion := fun d => d
        mergeDataFunction := defaultMergeDataFunction
        mergeStatusFunction := defaultMergeStatusFunction
        statusToSetForOutdated := Status.OUTDATED
        scrapedUrlsSet := none
        addSuggestionsOracle := fun _ => ⟨[], []⟩
        existingSuggestions :=
          [⟨41, Status.NEW, [("url", Val.str "https://s.example/H")], "u"⟩] }
    isIssueFixedWithAISuggestion := some (fun _ => Except.ok true)
    buildFixEntityPayload := some (fun s => Except.ok (some ⟨s.id⟩))
    isIssueResolvedOnProduction := some (fun _ => Except.ok true)
    saveSuggestionResult := fun _ => Except.ok ()
    addFixEntitiesResult := fun _ => Except.ok ()
    hasAddFixEntities := true
    apisAvailable := true
    fixEntityLookup := Except.ok [⟨40, ["sidH"], FixStatus.DEPLOYED⟩]
    fetchSuggestionList := fun _ =>
      Except.ok [⟨41, Status.NEW, [("url", Val.str "https://s.example/H")], "u"⟩]
    saveFixEntityResult := fun _ => Except.ok () }

/-- Witness for C5 at a concrete input: an author-only opportunity with a
production-resolution callback supplied performs neither the fix-entity
lookup nor any production check. -/
theorem author_only_skip_witness :
    wArgsC5.sync.opportunity.oppType ∈ AUTHOR_ONLY_OPPORTUNITY_TYPES
    ∧ Event.fixEntityLookup "opp5"
        ∉ (syncSuggestionsWithPublishDetection wArgsC5).events
    ∧ Event.prodCheck 41
        ∉ (syncSuggestionsWithPublishDetection wArgsC5).events :=
  ⟨by decide,
    (author_only_skip wArgsC5 (by decide)).1 "opp5",
    (author_only_skip wArgsC5 (by decide)).2.2.1 41⟩

/-! ## Idempotence (C4) -/

/-- The second synchronize call, immediately after a first one with the
same finding set: the store now holds the records the first call left
behind. -/
def rerun (a : SyncArgs) : SyncArgs :=
  { a with existingSuggestions := (syncSuggestions a).store }

/-- A suggestion record up to the actor stamp. -/
def stripActor (s : Suggestion) : Nat × Status × Obj :=
  (s.id, s.status, s.data)

/-- An all-success batch create: every submitted record is created as
submitted, with fresh identifiers and no error items. -/
def allSuccessOracle (startId : Nat) : List (Obj × Status) → AddResult :=
  fun subs =>
    ⟨subs.enum.map (fun p => ⟨startId + p.1, p.2.2, p.2.1, "system"⟩), []⟩

def cexBuildKey : Obj → String := fun o =>
  match objGet o "id" with
  | some (Val.str s) => s
  | _ => "?"

def cexArgsC4 : SyncArgs :=
  { ctx := ⟨none⟩
    opportunity := ⟨"opp4", "site4", "broken-links"⟩
    newData := [[("id", Val.str "k")]]
    buildKey := cexBuildKey
    mapNewSuggestion := fun _ => []
    mergeDataFunction := defaultMergeDataFunction
    mergeStatusFunction := defaultMergeStatusFunction
    statusToSetForOutdated := Status.OUTDATED
    scrapedUrlsSet := none
    addSuggestionsOracle := allSuccessOracle 100
    existingSuggestions := [] }

/-- Counterexample to C4 as stated: with a caller-supplied new-suggestion
builder that does not carry the finding's key into the created record's
data, the first call creates one suggestion and the immediate second call
with the same finding set performs another batch create and grows the
store again — synchronize is not idempotent for arbitrary key/builder
functions. -/
theorem sync_not_idempotent_cex :
    (syncSuggestions cexArgsC4).thrown = none
    ∧ Event.addSuggestionsCall 1 ∈ (syncSuggestions (rerun cexArgsC4)).events
    ∧ (syncSuggestions (rerun cexArgsC4)).store.length
        = (syncSuggestions cexArgsC4).store.length + 1 := by
  refine ⟨rfl, by decide, rfl⟩

/-- `find?` over an append when the left part finds. -/
theorem find?_append_of_some {α} (p : α → Bool) (l₁ l₂ : List α) (x : α)
    (h : l₁.find? p = some x) : (l₁ ++ l₂).find? p = some x := by
  induction l₁ with
  | nil => cases h
  | cons y ys ih =>
      rw [List.cons_append]
      by_cases hy : p y
      · rw [List.find?_cons_of_pos _ hy] at h ⊢
        exact h
      · rw [List.find?_cons_of_neg _ hy] at h ⊢
        exact ih h

/-- `find?` over an append when the left part does not find. -/
theorem find?_append_of_none {α} (p : α → Bool) (l₁ l₂ : List α)
    (h : l₁.find? p = none) : (l₁ ++ l₂).find? p = l₂.find? p := by
  induction l₁ with
  | nil => rfl
  | cons y ys ih =>
      rw [List.cons_append]
      by_cases hy : p y
      · rw [List.find?_cons_of_pos _ hy] at h
        cases h
      · rw [List.find?_cons_of_neg _ hy] at h ⊢
        exact ih h

/-- With pairwise distinct keys, the last-write-wins lookup returns the
(unique) new data item for its own key. -/
theorem mapGetLast_nodup (bk : Obj → String) (l : List Obj)
    (hu : (l.map bk).Nodup) (d : Obj) (hd : d ∈ l) :
    mapGetLast (l.map (fun x => (bk x, x))) (bk d) = some d := by
  induction l with
  | nil => cases hd
  | cons x xs ih =>
      unfold mapGetLast
      rw [List.map_cons, List.reverse_cons]
      rcases List.mem_cons.mp hd with rfl | hdxs
      · have hnot : (xs.map (fun x => (bk x, x))).reverse.find?
            (fun p => p.1 = bk d) = none := by
          rw [List.find?_eq_none]
          intro p hp
          rw [List.mem_reverse] at hp
          rcases List.mem_map.mp hp with ⟨y, hy, rfl⟩
          have hhead : bk d ∉ xs.map bk := by
            rw [List.map_cons] at hu
            exact (List.nodup_cons.mp hu).1
          simp only [decide_eq_true_eq]
          intro hbad
          exact hhead (hbad ▸ List.mem_map_of_mem bk hy)
        rw [find?_append_of_none _ _ _ hnot]
        simp [List.find?]
      · have ihh := ih (by rw [List.map_cons] at hu; exact (List.nodup_cons.mp hu).2) hdxs
        unfold mapGetLast at ihh
        cases hfind : (xs.map (fun x => (bk x, x))).reverse.find?
            (fun p => p.1 = bk d) with
        | none => rw [hfind] at ihh; cases ihh
        | some p =>
            rw [hfind] at ihh
            rw [find?_append_of_some _ _ _ _ hfind]
            exact ihh

/-- Spreading the same object twice is the same as spreading it once. -/
theorem spreadMerge_absorb (a b : Obj) :
    spreadMerge (spreadMerge a b) b = spreadMerge a b := by
  unfold spreadMerge
  rw [List.filter_append]
  have h1 : (a.filter (fun p => !(b.any (fun q => q.1 = p.1)))).filter
      (fun p => !(b.any (fun q => q.1 = p.1)))
      = a.filter (fun p => !(b.any (fun q => q.1 = p.1))) := by
    rw [List.filter_filter]
    apply List.filter_congr
    intro p _
    rw [Bool.and_self]
  have h2 : b.filter (fun p => !(b.any (fun q => q.1 = p.1))) = [] := by
    rw [List.filter_eq_nil_iff]
    intro p hp
    have hpp : b.any (fun q => q.1 = p.1) = true :=
      List.any_eq_true.mpr ⟨p, hp, by simp⟩
    simp [hpp]
  rw [h1, h2, List.append_nil]

theorem outdateOne_data (bk : Obj → String) (keys : List String) (st : Status)
    (scr : Option (List Val)) (s : Suggestion) :
    (outdateOne bk keys st scr s).data = s.data := by
  unfold outdateOne
  split <;> rfl

theorem outdateOne_of_not_eligible (bk : Obj → String) (keys : List String)
    (st : Status) (scr : Option (List Val)) (s : Suggestion)
    (h : eligibleForOutdating bk keys scr s = false) :
    outdateOne bk keys st scr s = s := by
  unfold outdateOne
  rw [h]
  rfl

theorem eligible_false_of_excluded (bk : Obj → String) (keys : List String)
    (scr : Option (List Val)) (s : Suggestion)
    (h : outdatedExclusionStatuses.contains s.status = true) :
    eligibleForOutdating bk keys scr s = false := by
  unfold eligibleForOutdating
  rw [h]
  simp

theorem defaultStatusTransition_ne_outdated (st : Status) (rv : Bool) :
    defaultStatusTransition st rv ≠ Status.OUTDATED := by
  unfold defaultStatusTransition
  cases st <;> cases rv <;> decide

theorem matchedUpdate_data_default (a : SyncArgs) (s : Suggestion)
    (hmd : a.mergeDataFunction = defaultMergeDataFunction)
    (hkey : (a.newData.map a.buildKey).contains (a.buildKey s.data) = true) :
    ∃ n, newDataByKeyGet a (a.buildKey s.data) = some n ∧ n ∈ a.newData
      ∧ a.buildKey n = a.buildKey s.data
      ∧ (matchedUpdate a s).data = spreadMerge s.data n := by
  obtain ⟨n, hn, hmem, hbk⟩ := newDataByKeyGet_isSome a _ hkey
  refine ⟨n, hn, hmem, hbk, ?_⟩
  unfold matchedUpdate
  dsimp only
  rw [if_pos hkey, hn]
  rw [hmd]
  dsimp only [defaultMergeDataFunction]
  split <;> rfl

/-- A matched update whose data merge is a no-op and whose status is not
OUTDATED leaves the record unchanged up to the actor stamp. -/
theorem matchedUpdate_strip_of_stable (b : SyncArgs) (s : Suggestion)
    (hmd : b.mergeDataFunction = defaultMergeDataFunction)
    (hms : b.mergeStatusFunction = defaultMergeStatusFunction)
    (hst : s.status ≠ Status.OUTDATED)
    (hdat : ∀ n, newDataByKeyGet b (b.buildKey s.data) = some n →
        spreadMerge s.data n = s.data) :
    stripActor (matchedUpdate b s) = stripActor s := by
  by_cases hkey : (b.newData.map b.buildKey).contains (b.buildKey s.data) = true
  · obtain ⟨n, hn, -, -⟩ := newDataByKeyGet_isSome b _ hkey
    have hd := hdat n hn
    unfold matchedUpdate
    dsimp only
    rw [if_pos hkey, hn]
    dsimp only
    rw [hms, hmd]
    dsimp only [defaultMergeDataFunction]
    rw [hd]
    unfold defaultMergeStatusFunction
    dsimp only
    by_cases hrej : s.status = Status.REJECTED
    · rw [if_pos hrej]
      rfl
    · rw [if_neg hrej, if_neg hst]
      rfl
  · have hkf : (b.newData.map b.buildKey).contains (b.buildKey s.data) = false := by
      cases hc : (b.newData.map b.buildKey).contains (b.buildKey s.data) with
      | false => rfl
      | true => exact absurd hc hkey
    rw [matchedUpdate_of_key_not_mem b s hkf]

theorem newDataByKeyGet_nodup (a : SyncArgs)
    (hu : (a.newData.map a.buildKey).Nodup) (d : Obj) (hd : d ∈ a.newData) :
    newDataByKeyGet a (a.buildKey d) = some d := by
  unfold newDataByKeyGet
  exact mapGetLast_nodup a.buildKey a.newData hu d hd

/-- Whatever the batch create returned (including nothing). -/
def createdOf (a : SyncArgs) : List Suggestion :=
  if (syncNewSubmissions a).length > 0 then
    (a.addSuggestionsOracle (syncNewSubmissions a)).createdItems
  else []

theorem sync_store_eq (a : SyncArgs) :
    (syncSuggestions a).store = syncUpdatedExisting a ++ createdOf a := by
  unfold syncSuggestions createdOf
  dsimp only
  split
  · split
    · split <;> rfl
    · rfl
  · exact (List.append_nil _).symm

theorem sync_thrown_of_no_new (a : SyncArgs) (h : syncNewSubmissions a = []) :
    (syncSuggestions a).thrown = none := by
  unfold syncSuggestions
  rw [h]
  simp

theorem sync_events_of_no_new (a : SyncArgs) (h : syncNewSubmissions a = []) :
    (syncSuggestions a).events =
      (handleOutdatedSuggestions a.buildKey (a.newData.map a.buildKey)
        a.statusToSetForOutdated a.scrapedUrlsSet a.existingSuggestions).events
      ++ ((handleOutdatedSuggestions a.buildKey (a.newData.map a.buildKey)
        a.statusToSetForOutdated a.scrapedUrlsSet
        a.existingSuggestions).store.filter
          (fun s => (a.newData.map a.buildKey).contains (a.buildKey s.data))).map
          (fun s => Event.saveSuggestion s.id) := by
  unfold syncSuggestions
  rw [h]
  simp

theorem handleOutdated_events_of_none_selected (bk : Obj → String)
    (keys : List String) (st : Status) (scr : Option (List Val))
    (ex : List Suggestion)
    (h : ex.filter (eligibleForOutdating bk keys scr) = []) :
    (handleOutdatedSuggestions bk keys st scr ex).events = [] := by
  unfold handleOutdatedSuggestions
  rw [h]
  rfl

/-- After one synchronize call with key-stable merge and builder, every
new data key is carried by some record of the resulting store. -/
theorem run1_key_coverage (a : SyncArgs)
    (hmd : a.mergeDataFunction = defaultMergeDataFunction)
    (h1 : ∀ d ∈ a.newData, a.buildKey (a.mapNewSuggestion d) = a.buildKey d)
    (h2 : ∀ dd : Obj, ∀ n ∈ a.newData,
        a.buildKey (spreadMerge dd n) = a.buildKey n)
    (hoc : ∀ subs, (a.addSuggestionsOracle subs).createdItems.map
        (fun s => (s.data, s.status)) = subs)
    (d : Obj) (hd : d ∈ a.newData) :
    ∃ s1 ∈ (syncSuggestions a).store, a.buildKey s1.data = a.buildKey d := by
  rw [sync_store_eq]
  by_cases hk : (a.existingSuggestions.map (fun s => a.buildKey s.data)).contains
      (a.buildKey d) = true
  · have hex : ∃ s0 ∈ a.existingSuggestions, a.buildKey s0.data = a.buildKey d := by
      have := List.mem_map.mp (by simpa using hk : a.buildKey d
        ∈ a.existingSuggestions.map (fun s => a.buildKey s.data))
      rcases this with ⟨s0, hs0, hbks0⟩
      exact ⟨s0, hs0, hbks0⟩
    obtain ⟨s0, hs0, hbks0⟩ := hex
    refine ⟨matchedUpdate a (outdateOne a.buildKey (a.newData.map a.buildKey)
      a.statusToSetForOutdated a.scrapedUrlsSet s0), ?_, ?_⟩
    · apply List.mem_append_left
      unfold syncUpdatedExisting handleOutdatedSuggestions
      dsimp only
      exact List.mem_map_of_mem _ (List.mem_map_of_mem _ hs0)
    · have hk0 : (a.newData.map a.buildKey).contains (a.buildKey s0.data) = true := by
        rw [hbks0]
        simpa using List.mem_map_of_mem a.buildKey hd
      rw [outdateOne_of_key_mem _ _ _ _ _ hk0]
      obtain ⟨n, hn, hnmem, hbkn, hdata⟩ := matchedUpdate_data_default a s0 hmd hk0
      rw [hdata, h2 s0.data n hnmem, hbkn, hbks0]
  · have hkf : (a.existingSuggestions.map (fun s => a.buildKey s.data)).contains
        (a.buildKey d) = false := by
      cases hc : (a.existingSuggestions.map (fun s => a.buildKey s.data)).contains
          (a.buildKey d) with
      | false => rfl
      | true => exact absurd hc hk
    have hdf : d ∈ a.newData.filter
        (fun d => !((a.existingSuggestions.map (fun s => a.buildKey s.data)).contains
          (a.buildKey d))) :=
      List.mem_filter.mpr ⟨hd, by rw [hkf]; rfl⟩
    have hsubm : (a.mapNewSuggestion d,
        if siteRequiresValidation a.ctx then Status.PENDING_VALIDATION
        else Status.NEW) ∈ syncNewSubmissions a := by
      unfold syncNewSubmissions
      exact List.mem_map_of_mem _ hdf
    have hlen : (syncNewSubmissions a).length > 0 :=
      List.length_pos.mpr (List.ne_nil_of_mem hsubm)
    have hmemc : (a.mapNewSuggestion d,
        if siteRequiresValidation a.ctx then Status.PENDING_VALIDATION
        else Status.NEW) ∈ (a.addSuggestionsOracle (syncNewSubmissions a)).createdItems.map
        (fun s => (s.data, s.status)) := by
      rw [hoc]
      exact hsubm
    rcases List.mem_map.mp hmemc with ⟨c, hcmem, hceq⟩
    refine ⟨c, List.mem_append_right _ ?_, ?_⟩
    · unfold createdOf
      rw [if_pos hlen]
      exact hcmem
    · rw [show c.data = a.mapNewSuggestion d from congrArg Prod.fst hceq]
      exact h1 d hd

/-- Per-record facts about the second synchronize call: no record of the
first call's store is eligible for outdating again, and the matched-update
stage changes nothing beyond the actor stamp. -/
theorem run2_elem_facts (a : SyncArgs)
    (hmd : a.mergeDataFunction = defaultMergeDataFunction)
    (hms : a.mergeStatusFunction = defaultMergeStatusFunction)
    (hso : a.statusToSetForOutdated = Status.OUTDATED)
    (hu : (a.newData.map a.buildKey).Nodup)
    (h1 : ∀ d ∈ a.newData, a.buildKey (a.mapNewSuggestion d) = a.buildKey d)
    (hab : ∀ d ∈ a.newData, spreadMerge (a.mapNewSuggestion d) d = a.mapNewSuggestion d)
    (h2 : ∀ dd : Obj, ∀ n ∈ a.newData,
        a.buildKey (spreadMerge dd n) = a.buildKey n)
    (hoc : ∀ subs, (a.addSuggestionsOracle subs).createdItems.map
        (fun s => (s.data, s.status)) = subs)
    (s1 : Suggestion) (hs1 : s1 ∈ (syncSuggestions a).store) :
    eligibleForOutdating a.buildKey (a.newData.map a.buildKey)
      a.scrapedUrlsSet s1 = false
    ∧ stripActor (matchedUpdate (rerun a) s1) = stripActor s1 := by
  rw [sync_store_eq] at hs1
  rcases List.mem_append.mp hs1 with hup | hcr
  · -- s1 is an updated pre-existing record
    unfold syncUpdatedExisting handleOutdatedSuggestions at hup
    dsimp only at hup
    rcases List.mem_map.mp hup with ⟨s0', hs0', rfl⟩
    rcases List.mem_map.mp hs0' with ⟨s0, hs0, rfl⟩
    by_cases hk0 : (a.newData.map a.buildKey).contains (a.buildKey s0.data) = true
    · -- still matched this run
      rw [outdateOne_of_key_mem _ _ _ _ _ hk0]
      obtain ⟨n, hn, hnmem, hbkn, hdata⟩ := matchedUpdate_data_default a s0 hmd hk0
      have hkey1 : a.buildKey (matchedUpdate a s0).data = a.buildKey s0.data := by
        rw [hdata, h2 s0.data n hnmem, hbkn]
      constructor
      · apply eligible_false_of_key_mem
        rw [hkey1]
        exact hk0
      · apply matchedUpdate_strip_of_stable (rerun a) _ hmd hms
        · rw [matchedUpdate_status_default a s0 hms hk0]
          exact defaultStatusTransition_ne_outdated _ _
        · intro n' hn'
          have hn'' : newDataByKeyGet a (a.buildKey (matchedUpdate a s0).data)
              = some n' := hn'
          rw [hkey1, hn] at hn''
          cases hn''
          rw [hdata]
          exact spreadMerge_absorb s0.data n
    · -- disappeared this run
      have hk0f : (a.newData.map a.buildKey).contains (a.buildKey s0.data) = false := by
        cases hc : (a.newData.map a.buildKey).contains (a.buildKey s0.data) with
        | false => rfl
        | true => exact absurd hc hk0
      rw [matchedUpdate_of_key_not_mem a _ (by rw [outdateOne_data]; exact hk0f)]
      have hkout : (a.newData.map a.buildKey).contains
          (a.buildKey (outdateOne a.buildKey (a.newData.map a.buildKey)
            a.statusToSetForOutdated a.scrapedUrlsSet s0).data) = false := by
        rw [outdateOne_data]
        exact hk0f
      refine ⟨?_, ?_⟩
      · by_cases helig : eligibleForOutdating a.buildKey
            (a.newData.map a.buildKey) a.scrapedUrlsSet s0 = true
        · unfold outdateOne
          rw [helig]
          simp only [if_true]
          apply eligible_false_of_excluded
          rw [hso]
          rfl
        · have heligf : eligibleForOutdating a.buildKey
              (a.newData.map a.buildKey) a.scrapedUrlsSet s0 = false := by
            cases hc : eligibleForOutdating a.buildKey
                (a.newData.map a.buildKey) a.scrapedUrlsSet s0 with
            | false => rfl
            | true => exact absurd hc helig
          rw [outdateOne_of_not_eligible _ _ _ _ _ heligf]
          exact heligf
      · rw [matchedUpdate_of_key_not_mem (rerun a) _ hkout]
  · -- s1 is a record the batch create returned
    unfold createdOf at hcr
    split at hcr
    · have hmemc := List.mem_map_of_mem (fun s => (s.data, s.status)) hcr
      rw [hoc] at hmemc
      unfold syncNewSubmissions at hmemc
      rcases List.mem_map.mp hmemc with ⟨d, hdf, heq⟩
      have hdmem : d ∈ a.newData := List.mem_of_mem_filter hdf
      have hd1 : a.mapNewSuggestion d = s1.data :=
        congrArg Prod.fst heq
      have hd2 : (if siteRequiresValidation a.ctx then Status.PENDING_VALIDATION
          else Status.NEW) = s1.status := congrArg Prod.snd heq
      have hbk1 : a.buildKey s1.data = a.buildKey d := by
        rw [← hd1]
        exact h1 d hdmem
      have hkmem : (a.newData.map a.buildKey).contains (a.buildKey s1.data)
          = true := by
        rw [hbk1]
        simpa using List.mem_map_of_mem a.buildKey hdmem
      refine ⟨eligible_false_of_key_mem _ _ _ _ hkmem, ?_⟩
      apply matchedUpdate_strip_of_stable (rerun a) _ hmd hms
      · rw [← hd2]
        split <;> decide
      · intro n' hn'
        have hn2 : newDataByKeyGet a (a.buildKey s1.data) = some n' := hn'
        rw [hbk1, newDataByKeyGet_nodup a hu d hdmem] at hn2
        cases hn2
        rw [← hd1]
        exact hab d hdmem
    · cases hcr

/-- C4 (amended): synchronize is idempotent under the default merge
functions and the default outdated target, provided the caller's key
function and builder are key-stable — new data keys are pairwise distinct,
the builder's record keeps the finding's key and absorbs the finding's
fields, the key function is stable under the data spread — and the batch
create returns the submitted records. The second call then changes no
record beyond the actor stamp, throws nothing, performs no batch create
and no bulk status update. -/
theorem sync_idempotent_amended (a : SyncArgs)
    (hmd : a.mergeDataFunction = defaultMergeDataFunction)
    (hms : a.mergeStatusFunction = defaultMergeStatusFunction)
    (hso : a.statusToSetForOutdated = Status.OUTDATED)
    (hu : (a.newData.map a.buildKey).Nodup)
    (h1 : ∀ d ∈ a.newData, a.buildKey (a.mapNewSuggestion d) = a.buildKey d)
    (hab : ∀ d ∈ a.newData,
        spreadMerge (a.mapNewSuggestion d) d = a.mapNewSuggestion d)
    (h2 : ∀ dd : Obj, ∀ n ∈ a.newData,
        a.buildKey (spreadMerge dd n) = a.buildKey n)
    (hoc : ∀ subs, (a.addSuggestionsOracle subs).createdItems.map
        (fun s => (s.data, s.status)) = subs) :
    (syncSuggestions (rerun a)).store.map stripActor
        = (syncSuggestions a).store.map stripActor
    ∧ (syncSuggestions (rerun a)).thrown = none
    ∧ (∀ n, Event.addSuggestionsCall n ∉ (syncSuggestions (rerun a)).events)
    ∧ (∀ ids st, Event.bulkUpdateStatus ids st
        ∉ (syncSuggestions (rerun a)).events) := by
  have hel := run2_elem_facts a hmd hms hso hu h1 hab h2 hoc
  have hsub2 : syncNewSubmissions (rerun a) = [] := by
    unfold syncNewSubmissions
    apply List.map_eq_nil_iff.mpr
    rw [List.filter_eq_nil_iff]
    intro d hd
    intro hbad
    obtain ⟨s1, hs1, hbk⟩ := run1_key_coverage a hmd h1 h2 hoc d hd
    have hmem2 : (rerun a).buildKey d ∈ (rerun a).existingSuggestions.map
        (fun s => (rerun a).buildKey s.data) :=
      List.mem_map.mpr ⟨s1, hs1, hbk⟩
    have hcont : ((rerun a).existingSuggestions.map
        (fun s => (rerun a).buildKey s.data)).contains ((rerun a).buildKey d)
        = true := by simpa using hmem2
    rw [hcont] at hbad
    simp at hbad
  have hsel2 : (rerun a).existingSuggestions.filter
      (eligibleForOutdating (rerun a).buildKey
        ((rerun a).newData.map (rerun a).buildKey) (rerun a).scrapedUrlsSet)
      = [] := by
    rw [List.filter_eq_nil_iff]
    intro s1 hs1 hbad
    have hfalse : eligibleForOutdating (rerun a).buildKey
        ((rerun a).newData.map (rerun a).buildKey) (rerun a).scrapedUrlsSet s1
        = false := (hel s1 hs1).1
    rw [hfalse] at hbad
    simp at hbad
  have hstore2 : (syncSuggestions (rerun a)).store
      = ((syncSuggestions a).store).map
        (fun s1 => matchedUpdate (rerun a)
          (outdateOne a.buildKey (a.newData.map a.buildKey)
            a.statusToSetForOutdated a.scrapedUrlsSet s1)) := by
    rw [sync_store_of_no_new _ hsub2]
    unfold syncUpdatedExisting handleOutdatedSuggestions
    dsimp only
    rw [List.map_map]
    rfl
  have hev : (syncSuggestions (rerun a)).events =
      [] ++ ((handleOutdatedSuggestions (rerun a).buildKey
        ((rerun a).newData.map (rerun a).buildKey)
        (rerun a).statusToSetForOutdated (rerun a).scrapedUrlsSet
        (rerun a).existingSuggestions).store.filter
          (fun s => ((rerun a).newData.map (rerun a).buildKey).contains
            ((rerun a).buildKey s.data))).map
          (fun s => Event.saveSuggestion s.id) := by
    rw [sync_events_of_no_new _ hsub2,
      handleOutdated_events_of_none_selected (rerun a).buildKey
        ((rerun a).newData.map (rerun a).buildKey)
        (rerun a).statusToSetForOutdated (rerun a).scrapedUrlsSet
        (rerun a).existingSuggestions hsel2]
  refine ⟨?_, sync_thrown_of_no_new _ hsub2, ?_, ?_⟩
  · rw [hstore2, List.map_map]
    apply List.map_congr_left
    intro s1 hs1
    have h := hel s1 hs1
    show stripActor (matchedUpdate (rerun a)
      (outdateOne a.buildKey (a.newData.map a.buildKey)
        a.statusToSetForOutdated a.scrapedUrlsSet s1)) = stripActor s1
    rw [outdateOne_of_not_eligible _ _ _ _ _ h.1]
    exact h.2
  · intro n hmem
    rw [hev] at hmem
    simp only [List.nil_append] at hmem
    rcases List.mem_map.mp hmem with ⟨s, -, heq⟩
    cases heq
  · intro ids st hmem
    rw [hev] at hmem
    simp only [List.nil_append] at hmem
    rcases List.mem_map.mp hmem with ⟨s, -, heq⟩
    cases heq

/-- The first binding in a spread comes from the right object when the
right object binds the field. -/
theorem objGet_spreadMerge_right (a b : Obj) (k : String)
    (h : b.any (fun q => q.1 = k) = true) :
    objGet (spreadMerge a b) k = objGet b k := by
  unfold spreadMerge objGet
  rw [find?_append_of_none]
  rw [List.find?_eq_none]
  intro x hx
  simp only [decide_eq_true_eq]
  intro hxk
  have hpred := (List.mem_filter.mp hx).2
  rw [hxk] at hpred
  rw [h] at hpred
  simp at hpred

def wArgsC4 : SyncArgs :=
  { cexArgsC4 with mapNewSuggestion := fun d => d }

/-- Witness for the amended C4 at a concrete input: with the identity
builder and the key on the `id` field, the second call changes nothing
beyond the actor stamp and throws nothing. -/
theorem sync_idempotent_amended_witness :
    (wArgsC4.newData.map wArgsC4.buildKey).Nodup
    ∧ (syncSuggestions (rerun wArgsC4)).store.map stripActor
        = (syncSuggestions wArgsC4).store.map stripActor
    ∧ (syncSuggestions (rerun wArgsC4)).thrown = none := by
  have h2w : ∀ dd : Obj, ∀ n ∈ wArgsC4.newData,
      wArgsC4.buildKey (spreadMerge dd n) = wArgsC4.buildKey n := by
    intro dd n hn
    have hn' : n = [("id", Val.str "k")] := by simpa [wArgsC4, cexArgsC4] using hn
    subst hn'
    show cexBuildKey (spreadMerge dd [("id", Val.str "k")])
      = cexBuildKey [("id", Val.str "k")]
    unfold cexBuildKey
    rw [objGet_spreadMerge_right dd _ "id" (by decide)]
  have hocw : ∀ subs, (wArgsC4.addSuggestionsOracle subs).createdItems.map
      (fun s => (s.data, s.status)) = subs := by
    intro subs
    show ((allSuccessOracle 100 subs).createdItems.map
      (fun s => (s.data, s.status))) = subs
    unfold allSuccessOracle
    dsimp only
    rw [List.map_map]
    have hfn : ((fun s : Suggestion => (s.data, s.status)) ∘
        (fun p : Nat × (Obj × Status) =>
          (⟨100 + p.1, p.2.2, p.2.1, "system"⟩ : Suggestion)))
        = fun p => p.2 := by
      funext p
      rfl
    rw [hfn]
    exact List.enum_map_snd subs
  have hmain := sync_idempotent_amended wArgsC4 rfl rfl rfl (by decide)
    (by decide) (by decide) h2w hocw
  exact ⟨by decide, hmain.1, hmain.2.1⟩

end Spacecat
